import Mathlib

/-!
# Verification of the pipeline-resource-signature binding model

Shallow embedding of the resource-signature data model, layout allocator,
resource cache and bind/validate/transition engine of
`Graphics/GraphicsEngine/include/PipelineResourceSignatureBase.hpp`,
`Graphics/GraphicsEngine/include/ShaderResourceVariableBase.hpp` and
`Graphics/GraphicsEngineD3D12/src/PipelineResourceSignatureD3D12Impl.cpp`.

Machine integers are modelled as `Nat` (no arithmetic in the modelled code
can overflow 32 bits on the inputs considered), shader-stage masks as `Nat`
bit masks, raw pointers to device objects as structured values compared by
identity, and the C++ standard library sort as a permutation-choice
function (see `IsSortChoice`).
-/

namespace DiligentPRS

/-- SHADER_RESOURCE_VARIABLE_TYPE: Static = 0, Mutable = 1, Dynamic = 2. -/
inductive VarType where
  | staticVar
  | mutableVar
  | dynamicVar
deriving DecidableEq, Inhabited

/-- Numeric value of SHADER_RESOURCE_VARIABLE_TYPE (used by the sort comparator,
the per-class offset table and hashing). -/
def VarType.toNat : VarType → Nat
  | .staticVar => 0
  | .mutableVar => 1
  | .dynamicVar => 2

/-- SHADER_RESOURCE_TYPE (only the values the D3D12 layout handles; the source
treats SHADER_RESOURCE_TYPE_INPUT_ATTACHMENT as unexpected). -/
inductive ResType where
  | constantBuffer
  | textureSRV
  | bufferSRV
  | textureUAV
  | bufferUAV
  | sampler
  | accelStruct
deriving DecidableEq, Inhabited

/-- D3D12_DESCRIPTOR_RANGE_TYPE: SRV = 0, UAV = 1, CBV = 2, SAMPLER = 3. -/
inductive RangeType where
  | srv
  | uav
  | cbv
  | sampler
deriving DecidableEq, Inhabited

/-- Numeric value of D3D12_DESCRIPTOR_RANGE_TYPE. -/
def RangeType.toNat : RangeType → Nat
  | .srv => 0
  | .uav => 1
  | .cbv => 2
  | .sampler => 3

/-- GetDescriptorRangeType (PipelineResourceSignatureD3D12Impl.cpp). -/
def getDescriptorRangeType : ResType → RangeType
  | .constantBuffer => .cbv
  | .textureSRV => .srv
  | .bufferSRV => .srv
  | .textureUAV => .uav
  | .bufferUAV => .uav
  | .sampler => .sampler
  | .accelStruct => .srv

/-- PIPELINE_RESOURCE_FLAGS bits used by the layout
(NO_DYNAMIC_BUFFERS, FORMATTED_BUFFER, RUNTIME_ARRAY). -/
structure ResFlags where
  noDynamicBuffers : Bool
  formattedBuffer : Bool
  runtimeArray : Bool
deriving DecidableEq, Inhabited

/-- Encoding of PIPELINE_RESOURCE_FLAGS as the Uint32 the source hashes
(NO_DYNAMIC_BUFFERS = 0x01, FORMATTED_BUFFER = 0x04, RUNTIME_ARRAY = 0x08). -/
def ResFlags.toNat (f : ResFlags) : Nat :=
  (if f.noDynamicBuffers then 1 else 0) +
  (if f.formattedBuffer then 4 else 0) +
  (if f.runtimeArray then 8 else 0)

/-- PipelineResourceDesc: one entry of PipelineResourceSignatureDesc::Resources.
ShaderStages is a SHADER_TYPE bit mask. -/
structure PipelineResourceDesc where
  name : String
  shaderStages : Nat
  arraySize : Nat
  resourceType : ResType
  varType : VarType
  flags : ResFlags
deriving DecidableEq, Inhabited

/-- ImmutableSamplerDesc: the sampler state SamplerDesc is opaque here and
modelled as a number (the source only copies, compares and hashes it). -/
structure ImmutableSamplerDesc where
  shaderStages : Nat
  samplerOrTextureName : String
  samplerDesc : Nat
deriving DecidableEq, Inhabited

/-- PipelineResourceSignatureDesc (the fields the modelled code reads). -/
structure PRSDesc where
  resources : List PipelineResourceDesc
  immutableSamplers : List ImmutableSamplerDesc
  bindingIndex : Nat
  useCombinedTextureSamplers : Bool
  combinedSamplerSuffix : String
deriving DecidableEq, Inhabited

/-- GetCombinedSamplerSuffix returns null when combined samplers are unused. -/
def PRSDesc.suffixOpt (d : PRSDesc) : Option String :=
  if d.useCombinedTextureSamplers then some d.combinedSamplerSuffix else none

/-- Modelled from the spec: StreqSuff (StringTools.hpp, not under src/) tests
whether Str equals Str2 with the given suffix appended; with a null suffix it
is plain string equality. Used for the combined-sampler name convention
(spec: pairing a texture with an implicitly-matched sampler by name suffix). -/
def streqSuff (s1 s2 : String) (suff : Option String) : Bool :=
  match suff with
  | some suf => s1 == s2 ++ suf
  | none => s1 == s2

/-- SHADER_TYPE bit values (GraphicsTypes.h). -/
def shaderTypeVertex : Nat := 1

/-- SHADER_TYPE_PIXEL. -/
def shaderTypePixel : Nat := 2

/-- SHADER_TYPE_GEOMETRY. -/
def shaderTypeGeometry : Nat := 4

/-- SHADER_TYPE_HULL. -/
def shaderTypeHull : Nat := 8

/-- SHADER_TYPE_DOMAIN. -/
def shaderTypeDomain : Nat := 16

/-- SHADER_TYPE_COMPUTE. -/
def shaderTypeCompute : Nat := 32

/-- SHADER_TYPE_AMPLIFICATION. -/
def shaderTypeAmplification : Nat := 64

/-- SHADER_TYPE_MESH. -/
def shaderTypeMesh : Nat := 128

/-! ## Modelling std::sort

CopyDescription (PipelineResourceSignatureBase.hpp) reorders the resource
array with std::sort and the comparator `lhs.VarType < rhs.VarType`.
std::sort guarantees a sorted permutation but, unlike std::stable_sort, says
nothing about the relative order of equivalent elements, and it observes the
elements only through the comparator.  We therefore model it by a
permutation-choice function: it receives the list of comparison keys
(the numeric VarType of each element) and returns the list of source
positions in result order.  `IsSortChoice` states the std::sort contract. -/

/-- Reorder `l` according to a list of source positions. -/
def applyPerm (idx : List Nat) (l : List α) : List α :=
  idx.filterMap (fun i => l[i]?)

/-- The std::sort contract for a permutation-choice function: for every key
list it returns a permutation of all positions that puts the keys in
nondecreasing order. -/
def IsSortChoice (sortf : List Nat → List Nat) : Prop :=
  ∀ ks : List Nat,
    (sortf ks).Perm (List.range ks.length) ∧
    List.Pairwise (fun i j => ks.getD i 0 ≤ ks.getD j 0) (sortf ks)

/-- One conforming permutation choice (used as a concrete witness): indices
ordered by key, ties broken by larger source position first.  It satisfies
the std::sort contract but is not stable. -/
def tieRel (ks : List Nat) (i j : Nat) : Prop :=
  ks.getD i 0 < ks.getD j 0 ∨ (ks.getD i 0 = ks.getD j 0 ∧ j ≤ i)

instance (ks : List Nat) : DecidableRel (tieRel ks) := by
  intro i j
  unfold tieRel
  infer_instance

instance (ks : List Nat) : IsTotal Nat (tieRel ks) where
  total i j := by
    unfold tieRel
    rcases Nat.lt_trichotomy (ks.getD i 0) (ks.getD j 0) with h | h | h
    · exact Or.inl (Or.inl h)
    · rcases Nat.le_total j i with hji | hij
      · exact Or.inl (Or.inr ⟨h, hji⟩)
      · exact Or.inr (Or.inr ⟨h.symm, hij⟩)
    · exact Or.inr (Or.inl h)

instance (ks : List Nat) : IsTrans Nat (tieRel ks) where
  trans i j k hij hjk := by
    unfold tieRel at *
    rcases hij with h1 | ⟨e1, l1⟩
    · rcases hjk with h2 | ⟨e2, _⟩
      · exact Or.inl (h1.trans h2)
      · exact Or.inl (e2 ▸ h1)
    · rcases hjk with h2 | ⟨e2, l2⟩
      · exact Or.inl (e1 ▸ h2)
      · exact Or.inr ⟨e1.trans e2, l2.trans l1⟩

/-- The concrete conforming (anti-stable) permutation choice. -/
def sortChoice (ks : List Nat) : List Nat :=
  List.insertionSort (tieRel ks) (List.range ks.length)

/-- Per-class resource counts: CopyDescription increments
m_ResourceOffsets[VarType + 1] once per resource of that class. -/
def countOfClass (rs : List PipelineResourceDesc) (c : Nat) : Nat :=
  rs.countP (fun r => r.varType.toNat = c)

/-- The m_ResourceOffsets array after CopyDescription: entry 0 is 0 and entry
c + 1 is obtained from the per-class counts by a running prefix sum. -/
def resourceOffsetsOf (rs : List PipelineResourceDesc) : List Nat :=
  [0,
   countOfClass rs 0,
   countOfClass rs 0 + countOfClass rs 1,
   countOfClass rs 0 + countOfClass rs 1 + countOfClass rs 2]

/-- The sorted internal resource copy produced by CopyDescription, for the
permutation choice `sortf` modelling std::sort. -/
def sortedResourcesOf (sortf : List Nat → List Nat) (rs : List PipelineResourceDesc) :
    List PipelineResourceDesc :=
  applyPerm (sortf (rs.map (fun r => r.varType.toNat))) rs

/-- Modelled from the spec: ValidatePipelineResourceSignatureDesc is not under
src/; the spec requires non-empty names, non-empty stage masks and array
sizes of at least 1 (for resources and immutable samplers). -/
def ValidDesc (d : PRSDesc) : Prop :=
  (∀ r ∈ d.resources, r.name ≠ "" ∧ r.shaderStages ≠ 0 ∧ 1 ≤ r.arraySize) ∧
  (∀ s ∈ d.immutableSamplers, s.samplerOrTextureName ≠ "" ∧ s.shaderStages ≠ 0)

instance (d : PRSDesc) : Decidable (ValidDesc d) := by
  unfold ValidDesc
  infer_instance

/-! ## Layout primitives: root parameters and descriptor ranges -/

/-- ROOT_TYPE: ROOT_TYPE_STATIC = 0 (static and mutable variables),
ROOT_TYPE_DYNAMIC = 1 (see GetRootType). -/
inductive RootTypeE where
  | staticRoot
  | dynamicRoot
deriving DecidableEq, Inhabited

/-- Numeric value of ROOT_TYPE. -/
def RootTypeE.toNat : RootTypeE → Nat
  | .staticRoot => 0
  | .dynamicRoot => 1

/-- ROOT_TYPE_COUNT. -/
def rootTypeCount : Nat := 2

/-- GetRootType (PipelineResourceSignatureD3D12Impl.cpp, line 800). -/
def getRootType (varType : VarType) : RootTypeE :=
  if varType = .dynamicVar then .dynamicRoot else .staticRoot

/-- D3D12_SHADER_VISIBILITY. -/
inductive Visibility where
  | all
  | vertex
  | pixel
  | geometry
  | hull
  | dom
  | amplification
  | mesh
deriving DecidableEq, Inhabited

/-- GetRootTableIndex (PipelineResourceSignatureD3D12Impl.cpp, line 433):
multi-bit stage masks map to table bucket 0 with VISIBILITY_ALL, single
stages to per-stage buckets; compute/ray-tracing stages share bucket 0. -/
def getRootTableIndex (shaderType : Nat) : Nat × Visibility :=
  if shaderType &&& (shaderType - 1) ≠ 0 then (0, .all)
  else if shaderType = shaderTypePixel then (1, .pixel)
  else if shaderType = shaderTypeVertex then (2, .vertex)
  else if shaderType = shaderTypeGeometry then (3, .geometry)
  else if shaderType = shaderTypeHull then (4, .hull)
  else if shaderType = shaderTypeDomain then (5, .dom)
  else if shaderType = shaderTypeAmplification then (2, .amplification)
  else if shaderType = shaderTypeMesh then (3, .mesh)
  else (0, .all)

/-- D3D12_DESCRIPTOR_RANGE.  An uninitialized range slot (RangeType -1 in the
debug build) is modelled as `none` at the level of the containing list. -/
structure DescriptorRange where
  rangeType : RangeType
  numDescriptors : Nat
  baseShaderRegister : Nat
  registerSpace : Nat
  offsetFromTableStart : Nat
deriving DecidableEq, Inhabited

/-- D3D12_ROOT_PARAMETER_TYPE (the values this translation unit constructs). -/
inductive RootParamType where
  | cbv
  | srv
  | uav
  | constants32Bit
  | descriptorTable
deriving DecidableEq, Inhabited

/-- RootParameter: root index, root type and the embedded D3D12_ROOT_PARAMETER.
Root views use shaderRegister/registerSpace; descriptor tables use
ranges/descriptorTableSize.  The backing-storage location of the range array
is not part of the model (the model stores values, not pointers). -/
structure RootParameter where
  paramType : RootParamType
  rootIndex : Nat
  rootType : RootTypeE
  visibility : Visibility
  shaderRegister : Nat := 0
  registerSpace : Nat := 0
  num32BitValues : Nat := 0
  ranges : List (Option DescriptorRange) := []
  descriptorTableSize : Nat := 0
deriving DecidableEq, Inhabited

/-- RootParameter::SetDescriptorRange: initializes range slot RangeIndex and
grows the cached descriptor-table size to max(size, offset + count). -/
def RootParameter.setDescriptorRange (p : RootParameter) (rangeIndex : Nat)
    (typ : RangeType) (register space count offsetFromTableStart : Nat) : RootParameter :=
  { p with
    ranges := p.ranges.set rangeIndex
      (some { rangeType := typ, numDescriptors := count, baseShaderRegister := register,
              registerSpace := space, offsetFromTableStart := offsetFromTableStart }),
    descriptorTableSize := max p.descriptorTableSize (offsetFromTableStart + count) }

/-- RootParamsManager: root tables and root views (the contiguous arena and
the total range count are bookkeeping for memory layout). -/
structure RootParamsManager where
  rootTables : List RootParameter := []
  rootViews : List RootParameter := []
  totalDescriptorRanges : Nat := 0
deriving DecidableEq, Inhabited

/-- The default value of the RootTableToAddRanges parameter of
RootParamsManager::Extend (~0u): no existing table receives extra ranges. -/
def noRootTableToAddRanges : Nat := 4294967295

/-- RootParamsManager::Extend: reallocates the arena, copies every existing
root table forward (the designated table, if any, with numExtraDescriptorRanges
additional uninitialized range slots appended), copies every existing root
view, and reserves numExtraRootTables/numExtraRootViews yet-unconstructed
slots at the end (modelled by default-valued placeholders that AddRootTable
and AddRootView overwrite). -/
def RootParamsManager.extend (m : RootParamsManager)
    (numExtraRootTables numExtraRootViews numExtraDescriptorRanges rootTableToAddRanges : Nat) :
    RootParamsManager :=
  { rootTables :=
      m.rootTables.mapIdx (fun rt tbl =>
        if rt = rootTableToAddRanges then
          { tbl with ranges := tbl.ranges ++ List.replicate numExtraDescriptorRanges none }
        else tbl)
      ++ List.replicate numExtraRootTables default,
    rootViews := m.rootViews ++ List.replicate numExtraRootViews default,
    totalDescriptorRanges := m.totalDescriptorRanges + numExtraDescriptorRanges }

/-- RootParamsManager::AddRootView: extends by one root view and constructs
it in the last view slot. -/
def RootParamsManager.addRootView (m : RootParamsManager) (paramType : RootParamType)
    (rootIndex register space : Nat) (vis : Visibility) (rootType : RootTypeE) :
    RootParamsManager :=
  let m2 := m.extend 0 1 0 noRootTableToAddRanges
  { m2 with
    rootViews := m2.rootViews.set (m2.rootViews.length - 1)
      { paramType := paramType, rootIndex := rootIndex, rootType := rootType,
        visibility := vis, shaderRegister := register, registerSpace := space } }

/-- RootParamsManager::AddRootTable: extends by one root table with
numRangesInNewTable uninitialized ranges and constructs it in the last
table slot. -/
def RootParamsManager.addRootTable (m : RootParamsManager) (rootIndex : Nat)
    (vis : Visibility) (rootType : RootTypeE) (numRangesInNewTable : Nat) :
    RootParamsManager :=
  let m2 := m.extend 1 0 numRangesInNewTable noRootTableToAddRanges
  { m2 with
    rootTables := m2.rootTables.set (m2.rootTables.length - 1)
      { paramType := .descriptorTable, rootIndex := rootIndex, rootType := rootType,
        visibility := vis, ranges := List.replicate numRangesInNewTable none } }

/-- RootParamsManager::AddDescriptorRanges: appends numExtraRanges
uninitialized range slots to the table at array index rootTableInd. -/
def RootParamsManager.addDescriptorRanges (m : RootParamsManager)
    (rootTableInd numExtraRanges : Nat) : RootParamsManager :=
  m.extend 0 0 numExtraRanges rootTableInd

/-! ## Per-resource layout attributes -/

/-- ResourceAttribs::InvalidSamplerInd. -/
def invalidSamplerInd : Nat := 65535

/-- ResourceAttribs::InvalidSRBRootIndex. -/
def invalidSRBRootIndex : Nat := 4294967295

/-- ResourceAttribs::InvalidSigRootIndex. -/
def invalidSigRootIndex : Nat := 4294967295

/-- ResourceAttribs::InvalidOffset. -/
def invalidOffset : Nat := 4294967295

/-- ResourceAttribs (PipelineResourceSignatureD3D12Impl): per-resource layout
result, computed once by CreateLayout and immutable afterwards. -/
structure ResourceAttribs where
  bindPoint : Nat
  space : Nat
  samplerInd : Nat
  srbRootIndex : Nat
  srbOffsetFromTableStart : Nat
  sigRootIndex : Nat
  sigOffsetFromTableStart : Nat
  imtblSamplerAssigned : Bool
  isRootView : Bool
deriving DecidableEq, Inhabited

/-- CacheContentType: whether a resource cache is the signature's own static
snapshot or a shader-resource-binding (binding-context) cache. -/
inductive CacheContentType where
  | signature
  | srb
deriving DecidableEq, Inhabited

/-- ResourceAttribs::RootIndex(CacheContentType). -/
def ResourceAttribs.rootIndexOf (a : ResourceAttribs) : CacheContentType → Nat
  | .signature => a.sigRootIndex
  | .srb => a.srbRootIndex

/-- ResourceAttribs::OffsetFromTableStart(CacheContentType). -/
def ResourceAttribs.offsetOf (a : ResourceAttribs) : CacheContentType → Nat
  | .signature => a.sigOffsetFromTableStart
  | .srb => a.srbOffsetFromTableStart

/-- ImmutableSamplerAttribs (D3D12): bind point assignment state of an
immutable sampler; `none` register means not yet assigned. -/
structure ImmutableSamplerAttribs where
  shaderRegister : Option Nat := none
  registerSpace : Nat := 0
  arraySize : Nat := 1
deriving DecidableEq, Inhabited

/-- ImmutableSamplerAttribs::IsAssigned. -/
def ImmutableSamplerAttribs.isAssigned (a : ImmutableSamplerAttribs) : Bool :=
  a.shaderRegister.isSome

/-! ## The layout allocator (CreateLayout / AllocateResourceSlot) -/

/-- Increment slot i of a counter array. -/
def listAdd (l : List Nat) (i n : Nat) : List Nat :=
  l.set i (l.getD i 0 + n)

/-- Decrement slot i of a counter array. -/
def listSub (l : List Nat) (i n : Nat) : List Nat :=
  l.set i (l.getD i 0 - n)

/-- FindImmutableSampler (file-local helper, PipelineResourceSignatureD3D12Impl.cpp
line 754): index of the first immutable sampler whose stages overlap the
resource's and whose name matches with the combined-sampler suffix. -/
def findImmutableSamplerIdx (res : PipelineResourceDesc)
    (samplers : List ImmutableSamplerDesc) (suff : Option String) : Option Nat :=
  samplers.findIdx? (fun sm =>
    (sm.shaderStages &&& res.shaderStages != 0) &&
    streqSuff res.name sm.samplerOrTextureName suff)

/-- FindAssignedSampler (PipelineResourceSignatureD3D12Impl.cpp line 1049):
searches the sorted resource array within the variable-class index range of
the texture for a sampler whose name is the texture's name plus the suffix. -/
def findAssignedSampler (useCombined : Bool) (suff : Option String)
    (sortedRes : List PipelineResourceDesc) (offs : List Nat)
    (sepImg : PipelineResourceDesc) : Nat :=
  if useCombined then
    let first := offs.getD sepImg.varType.toNat 0
    let last := offs.getD (sepImg.varType.toNat + 1) 0
    match (List.range' first (last - first)).find? (fun i =>
        let r := sortedRes.getD i default
        (r.resourceType == .sampler) &&
        (sepImg.shaderStages &&& r.shaderStages != 0) &&
        streqSuff r.name sepImg.name suff) with
    | some i => i
    | none => invalidSamplerInd
  else invalidSamplerInd

/-- The evolving state of CreateLayout: per-range-type bind-point counters,
static-cache table sizes, runtime-array space counter, the root-parameter
manager, the two (table bucket, root type) to table-array-index maps, the
immutable-sampler assignment states, the accumulated ResourceAttribs, and
the per-root-type descriptor totals. -/
structure LayoutState where
  numResources : List Nat
  staticResCacheTblSizes : List Nat
  numSpaces : Nat
  rootParams : RootParamsManager
  srvCbvUavRootTablesMap : List (Option Nat)
  samplerRootTablesMap : List (Option Nat)
  imtblSamplerAttribs : List ImmutableSamplerAttribs
  resourceAttribs : List ResourceAttribs
  totalSrvCbvUavSlots : List Nat
  totalSamplerSlots : List Nat
deriving DecidableEq, Inhabited

/-- AllocateResourceSlot (PipelineResourceSignatureD3D12Impl.cpp line 1075):
returns the updated state together with the assigned root index and offset
from table start. -/
def allocateResourceSlot (st : LayoutState) (shaderStages : Nat) (varType : VarType)
    (rangeType : RangeType) (arraySize : Nat) (isRootView : Bool)
    (bindPoint space : Nat) : LayoutState × Nat × Nat :=
  let rtv := getRootTableIndex shaderStages
  let rootTableIndex := rtv.1
  let shaderVisibility := rtv.2
  let rootType := getRootType varType
  let rootIndex0 := st.rootParams.rootTables.length + st.rootParams.rootViews.length
  if isRootView then
    let rp := st.rootParams.addRootView .cbv rootIndex0 bindPoint space shaderVisibility rootType
    ({ st with rootParams := rp }, rootIndex0, 0)
  else
    let isSampler := rangeType == .sampler
    let tableIndKey := rootTableIndex * rootTypeCount + rootType.toNat
    let curMap := if isSampler then st.samplerRootTablesMap else st.srvCbvUavRootTablesMap
    let step :=
      match curMap.getD tableIndKey none with
      | none =>
        let ind := st.rootParams.rootTables.length
        let newMap := curMap.set tableIndKey (some ind)
        let st2 := if isSampler then { st with samplerRootTablesMap := newMap }
                   else { st with srvCbvUavRootTablesMap := newMap }
        (ind, { st2 with rootParams := st2.rootParams.addRootTable rootIndex0 shaderVisibility rootType 1 })
      | some ind =>
        (ind, { st with rootParams := st.rootParams.addDescriptorRanges ind 1 })
    let rootTableArrayInd := step.1
    let st3 := step.2
    let st4 := if isSampler
      then { st3 with totalSamplerSlots := listAdd st3.totalSamplerSlots rootType.toNat arraySize }
      else { st3 with totalSrvCbvUavSlots := listAdd st3.totalSrvCbvUavSlots rootType.toNat arraySize }
    let currParam := st4.rootParams.rootTables.getD rootTableArrayInd default
    let rootIndex := currParam.rootIndex
    let offsetFromTableStart := currParam.descriptorTableSize
    let newDescriptorRangeIndex := currParam.ranges.length - 1
    let newTbl := currParam.setDescriptorRange newDescriptorRangeIndex rangeType bindPoint space arraySize offsetFromTableStart
    let st5 := { st4 with rootParams :=
      { st4.rootParams with rootTables := st4.rootParams.rootTables.set rootTableArrayInd newTbl } }
    (st5, rootIndex, offsetFromTableStart)

/-- The per-resource body of the CreateLayout loop (lines 931-1016), with the
resource's fields and the two name-lookup results passed explicitly (the body
reads the resource only through these). -/
def layoutResourceCore (firstSpace : Nat) (st : LayoutState) (varType : VarType)
    (resourceType : ResType) (arraySize : Nat) (flags : ResFlags) (shaderStages : Nat)
    (srcImtblSamplerInd : Option Nat) (assignedSamplerInd : Nat) : LayoutState :=
  let isRuntimeSizedArray := flags.runtimeArray
  let descriptorRangeType := getDescriptorRangeType resourceType
  let bindPoint := if isRuntimeSizedArray then 0 else st.numResources.getD descriptorRangeType.toNat 0
  let space := if isRuntimeSizedArray then st.numSpaces else 0
  let st1 := if isRuntimeSizedArray then { st with numSpaces := st.numSpaces + 1 } else st
  let sigStep :=
    if varType = .staticVar then
      let sri := descriptorRangeType.toNat
      (sri, st1.staticResCacheTblSizes.getD sri 0,
       { st1 with staticResCacheTblSizes := listAdd st1.staticResCacheTblSizes sri arraySize })
    else (invalidSigRootIndex, invalidOffset, st1)
  let sigRootIndex := sigStep.1
  let sigOffsetFromTableStart := sigStep.2.1
  let st2 := sigStep.2.2
  let isBuffer := (resourceType == .constantBuffer) || (resourceType == .bufferSRV) || (resourceType == .bufferUAV)
  let useDynamicOffset := !flags.noDynamicBuffers
  let isFormattedBuffer := flags.formattedBuffer
  let isRootView := isBuffer && useDynamicOffset && !isFormattedBuffer
  let st3 := if isRuntimeSizedArray then st2
             else { st2 with numResources := listAdd st2.numResources descriptorRangeType.toNat arraySize }
  match srcImtblSamplerInd with
  | some ind =>
    let imtbl := st3.imtblSamplerAttribs.getD ind default
    let st4 :=
      if imtbl.isAssigned then
        if isRuntimeSizedArray then st3
        else { st3 with numResources := listSub st3.numResources descriptorRangeType.toNat arraySize }
      else
        let newImtbl : ImmutableSamplerAttribs :=
          { shaderRegister := some bindPoint, registerSpace := space, arraySize := arraySize }
        { st3 with imtblSamplerAttribs := st3.imtblSamplerAttribs.set ind newImtbl }
    { st4 with resourceAttribs := st4.resourceAttribs ++
        [{ bindPoint := bindPoint, space := space, samplerInd := assignedSamplerInd,
           srbRootIndex := invalidSRBRootIndex, srbOffsetFromTableStart := invalidOffset,
           sigRootIndex := sigRootIndex, sigOffsetFromTableStart := sigOffsetFromTableStart,
           imtblSamplerAssigned := true, isRootView := isRootView }] }
  | none =>
    let alloc := allocateResourceSlot st3 shaderStages varType descriptorRangeType arraySize isRootView bindPoint (firstSpace + space)
    let st4 := alloc.1
    { st4 with resourceAttribs := st4.resourceAttribs ++
        [{ bindPoint := bindPoint, space := space, samplerInd := assignedSamplerInd,
           srbRootIndex := alloc.2.1, srbOffsetFromTableStart := alloc.2.2,
           sigRootIndex := sigRootIndex, sigOffsetFromTableStart := sigOffsetFromTableStart,
           imtblSamplerAssigned := false, isRootView := isRootView }] }

/-- The static inputs of CreateLayout: the immutable-sampler descriptors, the
combined-sampler convention, the sorted resource copy with its per-class
offsets, and the base register space. -/
structure LayoutCtx where
  samplers : List ImmutableSamplerDesc
  suffixOpt : Option String
  useCombined : Bool
  sortedRes : List PipelineResourceDesc
  offsets : List Nat
  firstSpace : Nat
deriving Inhabited

/-- One iteration of the CreateLayout resource loop: resolve the immutable
sampler (for sampler resources) and the assigned separate sampler (for
texture SRVs under the combined-sampler convention), then run the body. -/
def layoutResource (ctx : LayoutCtx) (st : LayoutState) (res : PipelineResourceDesc) :
    LayoutState :=
  let srcImtblSamplerInd :=
    if res.resourceType = .sampler then findImmutableSamplerIdx res ctx.samplers ctx.suffixOpt
    else none
  let assignedSamplerInd :=
    if srcImtblSamplerInd = none ∧ res.resourceType = .textureSRV then
      findAssignedSampler ctx.useCombined ctx.suffixOpt ctx.sortedRes ctx.offsets res
    else invalidSamplerInd
  layoutResourceCore ctx.firstSpace st res.varType res.resourceType res.arraySize res.flags
    res.shaderStages srcImtblSamplerInd assignedSamplerInd

/-- The trailing CreateLayout loop (lines 1018-1030): immutable samplers not
matched by any resource receive the next sampler bind point in the base
register space. -/
def addUnmatchedImmutableSampler (firstSpace : Nat) (st : LayoutState) (i : Nat) :
    LayoutState :=
  let imtbl := st.imtblSamplerAttribs.getD i default
  if imtbl.isAssigned then st
  else
    let samplerRange := (getDescriptorRangeType .sampler).toNat
    let reg := st.numResources.getD samplerRange 0
    { st with
      imtblSamplerAttribs := st.imtblSamplerAttribs.set i
        { shaderRegister := some reg, registerSpace := firstSpace, arraySize := imtbl.arraySize },
      numResources := listAdd st.numResources samplerRange 1 }

/-- The initial CreateLayout state (all counters zero, no root parameters,
both table maps filled with InvalidRootTableIndex, default-constructed
immutable-sampler attributes). -/
def initLayoutState (numImtblSamplers : Nat) : LayoutState :=
  { numResources := [0, 0, 0, 0],
    staticResCacheTblSizes := [0, 0, 0, 0],
    numSpaces := 0,
    rootParams := {},
    srvCbvUavRootTablesMap := List.replicate 12 none,
    samplerRootTablesMap := List.replicate 12 none,
    imtblSamplerAttribs := List.replicate numImtblSamplers ({} : ImmutableSamplerAttribs),
    resourceAttribs := [],
    totalSrvCbvUavSlots := [0, 0],
    totalSamplerSlots := [0, 0] }

/-- CreateLayout: walk the sorted resources, then assign trailing slots to
unmatched immutable samplers. -/
def createLayout (ctx : LayoutCtx) (numImtblSamplers : Nat) : LayoutState :=
  let st := ctx.sortedRes.foldl (layoutResource ctx) (initLayoutState numImtblSamplers)
  (List.range numImtblSamplers).foldl (addUnmatchedImmutableSampler ctx.firstSpace) st

/-- Modelled from the spec: GetBaseRegisterSpace is declared in the D3D12
implementation header, which is not under src/.  It only offsets the register
spaces recorded inside root parameters and never enters the compared or
hashed attributes, so it is modelled as 0. -/
def getBaseRegisterSpace (_d : PRSDesc) : Nat := 0

/-! ## The constructed signature -/

/-- The signature after construction: the sorted resource copy, the
immutable-sampler copy, the per-class offset table, binding index, the
per-resource layout attributes, the immutable-sampler attributes and the
root-parameter manager. -/
structure Signature where
  resources : List PipelineResourceDesc
  immutableSamplers : List ImmutableSamplerDesc
  combinedSamplerSuffixOpt : Option String
  bindingIndex : Nat
  resourceOffsets : List Nat
  resourceAttribs : List ResourceAttribs
  imtblSamplerAttribs : List ImmutableSamplerAttribs
  rootParams : RootParamsManager
  totalSrvCbvUavSlots : List Nat
  totalSamplerSlots : List Nat
deriving DecidableEq, Inhabited

/-- Signature construction (the constructor together with CopyDescription and
CreateLayout), parameterized by the std::sort permutation choice. -/
def buildSignature (sortf : List Nat → List Nat) (d : PRSDesc) : Signature :=
  let sortedRes := sortedResourcesOf sortf d.resources
  let offs := resourceOffsetsOf d.resources
  let ctx : LayoutCtx :=
    { samplers := d.immutableSamplers, suffixOpt := d.suffixOpt,
      useCombined := d.useCombinedTextureSamplers, sortedRes := sortedRes,
      offsets := offs, firstSpace := getBaseRegisterSpace d }
  let st := createLayout ctx d.immutableSamplers.length
  { resources := sortedRes,
    immutableSamplers := d.immutableSamplers,
    combinedSamplerSuffixOpt := d.suffixOpt,
    bindingIndex := d.bindingIndex,
    resourceOffsets := offs,
    resourceAttribs := st.resourceAttribs,
    imtblSamplerAttribs := st.imtblSamplerAttribs,
    rootParams := st.rootParams,
    totalSrvCbvUavSlots := st.totalSrvCbvUavSlots,
    totalSamplerSlots := st.totalSamplerSlots }

/-- GetResourceIndexRange (PipelineResourceSignatureBase.hpp line 164). -/
def Signature.getResourceIndexRange (sig : Signature) (varType : VarType) : Nat × Nat :=
  (sig.resourceOffsets.getD varType.toNat 0, sig.resourceOffsets.getD (varType.toNat + 1) 0)

/-- PipelineResourceSignatureBase::InvalidResourceIndex (~0u). -/
def invalidResourceIndex : Nat := 4294967295

/-- The FindResource loop (PipelineResourceSignatureBase.hpp line 202):
first resource whose stage mask intersects the given stage and whose name
matches; r is the index of the list head. -/
def findResourceAux (shaderStage : Nat) (resourceName : String) :
    Nat → List PipelineResourceDesc → Nat
  | _, [] => invalidResourceIndex
  | r, res :: rest =>
    if (res.shaderStages &&& shaderStage != 0) && (res.name == resourceName) then r
    else findResourceAux shaderStage resourceName (r + 1) rest

/-- FindResource(ShaderStage, ResourceName). -/
def Signature.findResource (sig : Signature) (shaderStage : Nat) (resourceName : String) : Nat :=
  findResourceAux shaderStage resourceName 0 sig.resources

/-! ## Hashing and compatibility -/

/-- Modelled from the spec: ComputeHash and HashCombine (HashUtils.hpp) are
not under src/; the spec only states that the hash combines the listed
attributes, so the two combining functions are kept as parameters. -/
structure HashModel where
  computeHash3 : Nat → Nat → Nat → Nat
  hashCombine : Nat → Nat → Nat

/-- Fold HashCombine over a list of values (a variadic HashCombine call). -/
def hashCombineList (H : HashModel) (h : Nat) (vs : List Nat) : Nat :=
  vs.foldl H.hashCombine h

/-- The values HashCombine receives for one resource in CalculateHash
(line 1312): array size, stages, variable type, flags, bind point, space,
SRB root index, SRB offset, immutable-sampler-assigned flag. -/
def resourceHashValues (res : PipelineResourceDesc) (attr : ResourceAttribs) : List Nat :=
  [res.arraySize, res.shaderStages, res.varType.toNat, res.flags.toNat,
   attr.bindPoint, attr.space, attr.srbRootIndex, attr.srbOffsetFromTableStart,
   attr.imtblSamplerAssigned.toNat]

/-- CalculateHash (PipelineResourceSignatureD3D12Impl.cpp line 1300): zero
for an empty description, otherwise the seed over the two counts and the
binding index folded with every resource's and every immutable sampler's
attributes. -/
def calculateHash (H : HashModel) (sig : Signature) : Nat :=
  if sig.resources.length = 0 ∧ sig.immutableSamplers.length = 0 then 0
  else
    let seed := H.computeHash3 sig.resources.length sig.immutableSamplers.length sig.bindingIndex
    let h1 := (List.range sig.resources.length).foldl (fun h i =>
      hashCombineList H h (resourceHashValues (sig.resources.getD i default)
        (sig.resourceAttribs.getD i default))) seed
    sig.immutableSamplers.foldl (fun h s => hashCombineList H h [s.shaderStages, s.samplerDesc]) h1

/-- GetHash (PipelineResourceSignatureBase.hpp line 152); m_Hash is computed
once by the constructor as CalculateHash(). -/
def Signature.getHash (sig : Signature) (H : HashModel) : Nat :=
  calculateHash H sig

/-- ResourcesCompatible on ResourceAttribs (line 773): ignores the sampler
index and the signature root index and offset. -/
def resourcesCompatibleAttribs (lhs rhs : ResourceAttribs) : Bool :=
  (lhs.bindPoint == rhs.bindPoint) &&
  (lhs.space == rhs.space) &&
  (lhs.srbRootIndex == rhs.srbRootIndex) &&
  (lhs.srbOffsetFromTableStart == rhs.srbOffsetFromTableStart) &&
  (lhs.imtblSamplerAssigned == rhs.imtblSamplerAssigned)

/-- ResourcesCompatible on PipelineResourceDesc (line 786): ignores the
resource names. -/
def resourcesCompatibleDescs (lhs rhs : PipelineResourceDesc) : Bool :=
  (lhs.shaderStages == rhs.shaderStages) &&
  (lhs.arraySize == rhs.arraySize) &&
  (lhs.resourceType == rhs.resourceType) &&
  (lhs.varType == rhs.varType) &&
  (lhs.flags == rhs.flags)

/-- IsCompatibleWith (line 1197).  The early-return chain of the source is an
and-chain here; the physical-identity shortcut (this == &Other) is subsumed,
as every check passes on definitionally equal signatures. -/
def isCompatibleWith (H : HashModel) (a b : Signature) : Bool :=
  (a.getHash H == b.getHash H) &&
  (a.bindingIndex == b.bindingIndex) &&
  (a.resources.length == b.resources.length) &&
  ((List.range a.resources.length).all (fun r =>
    resourcesCompatibleAttribs (a.resourceAttribs.getD r default) (b.resourceAttribs.getD r default) &&
    resourcesCompatibleDescs (a.resources.getD r default) (b.resources.getD r default))) &&
  (a.immutableSamplers.length == b.immutableSamplers.length) &&
  ((List.range a.immutableSamplers.length).all (fun s =>
    let lsamp := a.immutableSamplers.getD s default
    let rsamp := b.immutableSamplers.getD s default
    (lsamp.shaderStages == rsamp.shaderStages) && (lsamp.samplerDesc == rsamp.samplerDesc)))

/-! ## The shader resource cache and the bind engine -/

/-- The concrete kind of a device object handed to BindResource (what the
IID-based RefCntAutoPtr casts test). -/
inductive ObjKind where
  | buffer
  | bufferView
  | textureView
  | sampler
  | tlas
deriving DecidableEq, Inhabited

/-- A device object, compared by identity.  handle is the CPU descriptor
handle its getter returns, usageDynamic the USAGE_DYNAMIC flag of a buffer,
viewType the view type of a view object. -/
structure DevObj where
  id : Nat
  kind : ObjKind
  handle : Nat := 1
  usageDynamic : Bool := false
  viewType : Nat := 0
deriving DecidableEq, Inhabited

/-- The IID cast of RefCntAutoPtr: succeeds only for the right object kind. -/
def castKind (k : ObjKind) (obj : DevObj) : Option DevObj :=
  if obj.kind = k then some obj else none

/-- ShaderResourceCacheD3D12::Resource: bound object, resource-kind tag
(`none` is SHADER_RESOURCE_TYPE_UNKNOWN) and CPU descriptor handle
(0 is a null handle). -/
structure CachedResource where
  typ : Option ResType := none
  pObject : Option DevObj := none
  cpuDescriptorHandle : Nat := 0
deriving DecidableEq, Inhabited

/-- The default-constructed (empty) cache entry. -/
def emptyCachedResource : CachedResource := {}

/-- ShaderResourceCacheD3D12::RootTable: the flat entry array. -/
structure RootTableCache where
  resources : List CachedResource := []
deriving DecidableEq, Inhabited

/-- The default (empty) root-table cache. -/
def emptyRootTableCache : RootTableCache := {}

/-- ShaderResourceCacheD3D12: root tables indexed by root index, the counter
of bound dynamic constant buffers, and the cache content type. -/
structure ResourceCache where
  tables : List RootTableCache := []
  boundDynamicCBsCounter : Nat := 0
  contentType : CacheContentType := .srb
deriving DecidableEq, Inhabited

/-- GetRootTable(root).GetResource(offset). -/
def ResourceCache.getRes (c : ResourceCache) (rootIndex offset : Nat) : CachedResource :=
  (c.tables.getD rootIndex emptyRootTableCache).resources.getD offset emptyCachedResource

/-- Write one cache entry. -/
def ResourceCache.setRes (c : ResourceCache) (rootIndex offset : Nat) (r : CachedResource) :
    ResourceCache :=
  let tbl := c.tables.getD rootIndex emptyRootTableCache
  { c with tables := c.tables.set rootIndex { resources := tbl.resources.set offset r } }

/-- The diagnostics the bind/validate/copy paths can emit. -/
inductive LogMsg where
  | rebindConflictError
  | wrongTypeError
  | wrongViewTypeError
  | unassignedStaticError (resIndex arrayIndex : Nat)
  | staticMismatchError
  | alreadyInitializedWarning
deriving DecidableEq

/-- Whether a diagnostic is an error (LOG_ERROR_MESSAGE / DEV_CHECK_ERR) as
opposed to a warning (LOG_WARNING_MESSAGE). -/
def LogMsg.isError : LogMsg → Bool
  | .alreadyInitializedWarning => false
  | _ => true

/-- BindResourceHelper::CacheSampler (PipelineResourceSignatureD3D12Impl.cpp
line 1846).  The copy into the GPU-visible descriptor heap is an external
side effect and is not part of the cache state. -/
def cacheSampler (resDesc : PipelineResourceDesc) (dstRes : CachedResource)
    (pSampler : DevObj) : CachedResource × List LogMsg :=
  match castKind .sampler pSampler with
  | some samp =>
    if resDesc.varType ≠ .dynamicVar ∧ dstRes.pObject ≠ none then
      let logs := if dstRes.pObject ≠ some pSampler then [LogMsg.rebindConflictError] else []
      (dstRes, logs)
    else
      ({ typ := some .sampler, pObject := some samp, cpuDescriptorHandle := samp.handle }, [])
  | none => (dstRes, [LogMsg.wrongTypeError])

/-- The development-build diagnostics of VerifyResourceViewBinding
(ShaderResourceVariableBase.hpp line 291): failed cast, unexpected view
type, and the rebind-conflict error for a non-Dynamic slot already holding
a different non-null object. -/
def verifyResourceViewBinding (dbgExpectedViewType : Nat) (resDesc : PipelineResourceDesc)
    (dstRes : CachedResource) (castRes : Option DevObj) : List LogMsg :=
  match castRes with
  | none => [LogMsg.wrongTypeError]
  | some v =>
    (if v.viewType ≠ dbgExpectedViewType then [LogMsg.wrongViewTypeError] else []) ++
    (if resDesc.varType ≠ .dynamicVar ∧ dstRes.pObject ≠ none ∧ dstRes.pObject ≠ some v then
      [LogMsg.rebindConflictError]
    else [])

/-- BindResourceHelper::CacheResourceView (line 1950).  bindSamplerProc is
the sampler-binding procedure passed by BindResource (a no-op for all but
combined-sampler texture SRVs); its diagnostics are appended. -/
def cacheResourceView (expectedKind : ObjKind) (dbgExpectedViewType : Nat)
    (resDesc : PipelineResourceDesc) (dstRes : CachedResource)
    (bindSamplerProc : DevObj → List LogMsg) (pView : DevObj) :
    CachedResource × List LogMsg :=
  let castRes := castKind expectedKind pView
  let verifyLogs := verifyResourceViewBinding dbgExpectedViewType resDesc dstRes castRes
  match castRes with
  | some v =>
    if resDesc.varType ≠ .dynamicVar ∧ dstRes.pObject ≠ none then (dstRes, verifyLogs)
    else
      let samplerLogs := bindSamplerProc v
      ({ typ := some resDesc.resourceType, pObject := some v,
         cpuDescriptorHandle := v.handle }, verifyLogs ++ samplerLogs)
  | none => (dstRes, verifyLogs)

/-- IsBound (PipelineResourceSignatureD3D12Impl.cpp line 2168), translated
literally: note the source adds ArrayIndex a second time both in the bounds
check and in the GetResource call. -/
def Signature.isBound (sig : Signature) (arrayIndex resIndex : Nat)
    (cache : ResourceCache) : Bool :=
  let attribs := sig.resourceAttribs.getD resIndex default
  let cacheType := cache.contentType
  let rootIndex := attribs.rootIndexOf cacheType
  let offsetFromTableStart := attribs.offsetOf cacheType + arrayIndex
  if rootIndex < cache.tables.length then
    let rootTable := cache.tables.getD rootIndex emptyRootTableCache
    if offsetFromTableStart + arrayIndex < rootTable.resources.length then
      let cachedRes := rootTable.resources.getD (offsetFromTableStart + arrayIndex)
        emptyCachedResource
      cachedRes.pObject.isSome
    else false
  else false

/-! ## InitializeStaticSRBResources -/

/-- The (resource index, array index) pairs the InitializeStaticSRBResources
loops visit: every array element of every Static-class resource. -/
def staticSlotPairs (sig : Signature) : List (Nat × Nat) :=
  let range := sig.getResourceIndexRange .staticVar
  (List.range' range.1 (range.2 - range.1)).flatMap (fun r =>
    (List.range (sig.resources.getD r default).arraySize).map (fun a => (r, a)))

/-- One iteration of the InitializeStaticSRBResources copy
(PipelineResourceSignatureD3D12Impl.cpp lines 1473-1535): slots whose bound
object already equals the snapshot's are skipped; otherwise the object,
type tag and descriptor handle are copied and the dynamic-constant-buffer
counter is adjusted.  The CopyDescriptorsSimple calls into the GPU-visible
heap are external side effects and not part of the cache state. -/
def initStaticStep (sig : Signature) (srcCache : ResourceCache)
    (acc : ResourceCache × List LogMsg) (p : Nat × Nat) : ResourceCache × List LogMsg :=
  let dst := acc.1
  let attr := sig.resourceAttribs.getD p.1 default
  let dstRootIndex := attr.rootIndexOf dst.contentType
  let dstCacheOffset := attr.offsetOf dst.contentType + p.2
  let srcRes := srcCache.getRes (attr.rootIndexOf srcCache.contentType)
    (attr.offsetOf srcCache.contentType + p.2)
  let unassignedLogs :=
    if srcRes.pObject = none then [LogMsg.unassignedStaticError p.1 p.2] else []
  let dstRes := dst.getRes dstRootIndex dstCacheOffset
  if dstRes.pObject ≠ srcRes.pObject then
    let mismatchLogs := if dstRes.pObject ≠ none then [LogMsg.staticMismatchError] else []
    let counter0 := dst.boundDynamicCBsCounter
    let counter1 :=
      if srcRes.typ = some .constantBuffer then
        let c := match dstRes.pObject with
          | some o => if o.usageDynamic then counter0 - 1 else counter0
          | none => counter0
        match srcRes.pObject with
        | some o => if o.usageDynamic then c + 1 else c
        | none => c
      else counter0
    let dst2 := dst.setRes dstRootIndex dstCacheOffset
      { typ := srcRes.typ, pObject := srcRes.pObject,
        cpuDescriptorHandle := srcRes.cpuDescriptorHandle }
    ({ dst2 with boundDynamicCBsCounter := counter1 }, acc.2 ++ unassignedLogs ++ mismatchLogs)
  else
    (dst, acc.2 ++ unassignedLogs)

/-- InitializeStaticSRBResources (D3D12, line 1448): copy every Static-class
slot from the signature's snapshot cache into the destination cache. -/
def initializeStaticSRBResources (sig : Signature) (srcCache dstCache : ResourceCache) :
    ResourceCache × List LogMsg :=
  (staticSlotPairs sig).foldl (initStaticStep sig srcCache) (dstCache, [])

/-- A shader resource binding object: its cache and the
StaticResourcesInitialized flag. -/
structure SRB where
  cache : ResourceCache
  staticResourcesInitialized : Bool
deriving DecidableEq, Inhabited

/-- InitializeStaticSRBResourcesImpl (PipelineResourceSignatureBase.hpp line
508) with the D3D12 copy as its handler: an already-initialized binding
object produces a warning and returns unchanged; otherwise the copy runs and
the flag is set.  The signature's snapshot cache (m_pStaticResCache) is
passed explicitly; the development-build cross-signature compatibility check
does not apply when the binding belongs to this signature. -/
def initializeStaticSRBResourcesImpl (sig : Signature) (srcCache : ResourceCache)
    (srb : SRB) : SRB × List LogMsg :=
  if srb.staticResourcesInitialized then (srb, [LogMsg.alreadyInitializedWarning])
  else
    let res := initializeStaticSRBResources sig srcCache srb.cache
    ({ cache := res.1, staticResourcesInitialized := true }, res.2)

/-! ## The transition engine -/

/-- A GPU resource as the transition engine sees it: identity and current
state (`none` when the state is unknown, IsInKnownState() false). -/
structure GpuResource where
  id : Nat
  state : Option Nat := none
deriving DecidableEq, Inhabited

/-- RESOURCE_STATE_CONSTANT_BUFFER (GraphicsTypes.h bit values). -/
def stateConstantBuffer : Nat := 4

/-- RESOURCE_STATE_UNORDERED_ACCESS. -/
def stateUnorderedAccess : Nat := 32

/-- RESOURCE_STATE_SHADER_RESOURCE. -/
def stateShaderResource : Nat := 256

/-- RESOURCE_STATE_INPUT_ATTACHMENT. -/
def stateInputAttachment : Nat := 32768

/-- RESOURCE_STATE_RAY_TRACING. -/
def stateRayTracing : Nat := 524288

/-- IsInKnownState(). -/
def GpuResource.isInKnownState (o : GpuResource) : Bool :=
  o.state.isSome

/-- CheckState(s): the resource's known state contains every bit of s. -/
def GpuResource.checkState (o : GpuResource) (s : Nat) : Bool :=
  match o.state with
  | some st => st &&& s == s
  | none => false

/-- CheckAnyState(s): the resource's known state intersects s. -/
def GpuResource.checkAnyState (o : GpuResource) (s : Nat) : Bool :=
  match o.state with
  | some st => st &&& s != 0
  | none => false

/-- A cache entry as the transition walk reads it: the resource-kind tag and
the underlying GPU resource the transition targets (the buffer or texture
behind a view, the buffer of a constant buffer, the TLAS itself). -/
structure TransRes where
  typ : Option ResType := none
  obj : Option GpuResource := none
deriving DecidableEq, Inhabited

/-- One Ctx.TransitionResource(object, targetState) call. -/
structure TransitionCall where
  objId : Nat
  targetState : Nat
deriving DecidableEq, Inhabited

/-- The file-local TransitionResource helper (PipelineResourceSignatureD3D12Impl.cpp
line 527) in transition mode: which command-context TransitionResource call
one bound cache entry produces. -/
def transitionResource (res : TransRes) : List TransitionCall :=
  match res.typ, res.obj with
  | some .constantBuffer, some o =>
    if o.isInKnownState && !o.checkState stateConstantBuffer then
      [{ objId := o.id, targetState := stateConstantBuffer }]
    else []
  | some .bufferSRV, some o =>
    if o.isInKnownState && !o.checkState stateShaderResource then
      [{ objId := o.id, targetState := stateShaderResource }]
    else []
  | some .bufferUAV, some o =>
    if o.isInKnownState then [{ objId := o.id, targetState := stateUnorderedAccess }]
    else []
  | some .textureSRV, some o =>
    if o.isInKnownState && !o.checkAnyState (stateShaderResource ||| stateInputAttachment) then
      [{ objId := o.id, targetState := stateShaderResource }]
    else []
  | some .textureUAV, some o =>
    if o.isInKnownState then [{ objId := o.id, targetState := stateUnorderedAccess }]
    else []
  | some .sampler, _ => []
  | some .accelStruct, some o =>
    if o.isInKnownState then [{ objId := o.id, targetState := stateRayTracing }]
    else []
  | _, _ => []

/-- The cache contents as the transition walk reads them: per root index, the
flat entry array. -/
structure TransCache where
  tables : List (List TransRes)
deriving DecidableEq, Inhabited

/-- ProcessCachedTableResources (line 505) for one root table combined with
the transition operation: every descriptor of every initialized range. -/
def tableTransitions (cache : TransCache) (rootInd : Nat) (rp : RootParameter) :
    List TransitionCall :=
  rp.ranges.flatMap (fun orange =>
    match orange with
    | some range =>
      (List.range range.numDescriptors).flatMap (fun d =>
        transitionResource ((cache.tables.getD rootInd []).getD
          (range.offsetFromTableStart + d) {}))
    | none => [])

/-- TransitionResources (line 1539) in transition mode: ProcessRootTables
walks every root table (root views are not walked) and transitions every
cached descriptor. -/
def transitionResources (m : RootParamsManager) (cache : TransCache) :
    List TransitionCall :=
  m.rootTables.flatMap (fun rp => tableTransitions cache rp.rootIndex rp)

/-! ## Descriptor-table packing predicates (claim C7) -/

/-- The descriptor ranges of a table are initialized and packed starting at
the given offset: each range starts where the previous one ended. -/
def rangesPackedFrom : Nat → List (Option DescriptorRange) → Prop
  | _, [] => True
  | ofs, ro :: rest =>
    match ro with
    | none => False
    | some r => r.offsetFromTableStart = ofs ∧ rangesPackedFrom (ofs + r.numDescriptors) rest

/-- Total descriptor count of a range list (uninitialized slots count 0). -/
def sumCountsO (rs : List (Option DescriptorRange)) : Nat :=
  (rs.map (fun o => match o with | some r => r.numDescriptors | none => 0)).sum

/-- The invariant every root table of a constructed layout satisfies. -/
def TableInv (p : RootParameter) : Prop :=
  rangesPackedFrom 0 p.ranges ∧ p.descriptorTableSize = sumCountsO p.ranges

/-- The invariant the layout state maintains: every root table satisfies
`TableInv` and both bucket maps hold only valid table-array indices. -/
def LayoutInv (st : LayoutState) : Prop :=
  (∀ rt, rt < st.rootParams.rootTables.length →
    TableInv (st.rootParams.rootTables.getD rt default)) ∧
  (∀ key idx, st.srvCbvUavRootTablesMap.getD key none = some idx →
    idx < st.rootParams.rootTables.length) ∧
  (∀ key idx, st.samplerRootTablesMap.getD key none = some idx →
    idx < st.rootParams.rootTables.length)

/-- The packing property claimed for every built root table: each range slot
is initialized and its offset is the sum of the counts of the ranges before
it (the table size at the time it was added), the occupied intervals are
pairwise disjoint, and the reported descriptor-table size is an upper bound
on offset + count that is attained by some range when any exists. -/
def TablePacked (p : RootParameter) : Prop :=
  (∀ k, k < p.ranges.length → ∃ r, p.ranges.getD k none = some r ∧
    r.offsetFromTableStart = sumCountsO (p.ranges.take k)) ∧
  List.Pairwise (fun a b =>
    a.offsetFromTableStart + a.numDescriptors ≤ b.offsetFromTableStart)
    p.ranges.reduceOption ∧
  (∀ r ∈ p.ranges.reduceOption,
    r.offsetFromTableStart + r.numDescriptors ≤ p.descriptorTableSize) ∧
  (p.ranges ≠ [] → ∃ r ∈ p.ranges.reduceOption,
    r.offsetFromTableStart + r.numDescriptors = p.descriptorTableSize)

/-- Two resource entries that agree on everything except possibly the name
(the fields ResourcesCompatible compares and the layout reads). -/
def NonNameEqRes (r1 r2 : PipelineResourceDesc) : Prop :=
  r1.varType = r2.varType ∧ r1.resourceType = r2.resourceType ∧
  r1.arraySize = r2.arraySize ∧ r1.flags = r2.flags ∧
  r1.shaderStages = r2.shaderStages

instance (r1 r2 : PipelineResourceDesc) : Decidable (NonNameEqRes r1 r2) := by
  unfold NonNameEqRes
  infer_instance

/-- Two descriptions identical except for resource and sampler names, where
the renaming preserves the two name-driven lookups of CreateLayout: the
immutable-sampler match and the combined-sampler assignment of every sorted
resource. -/
def RenameCompatible (sortf : List Nat → List Nat) (d1 d2 : PRSDesc) : Prop :=
  d1.bindingIndex = d2.bindingIndex ∧
  d1.immutableSamplers.length = d2.immutableSamplers.length ∧
  (∀ j, j < d1.immutableSamplers.length →
    (d1.immutableSamplers.getD j default).shaderStages =
      (d2.immutableSamplers.getD j default).shaderStages ∧
    (d1.immutableSamplers.getD j default).samplerDesc =
      (d2.immutableSamplers.getD j default).samplerDesc) ∧
  (sortedResourcesOf sortf d1.resources).length =
    (sortedResourcesOf sortf d2.resources).length ∧
  (∀ i, i < (sortedResourcesOf sortf d1.resources).length →
    NonNameEqRes ((sortedResourcesOf sortf d1.resources).getD i default)
      ((sortedResourcesOf sortf d2.resources).getD i default)) ∧
  (∀ i, i < (sortedResourcesOf sortf d1.resources).length →
    findImmutableSamplerIdx ((sortedResourcesOf sortf d1.resources).getD i default)
      d1.immutableSamplers d1.suffixOpt =
    findImmutableSamplerIdx ((sortedResourcesOf sortf d2.resources).getD i default)
      d2.immutableSamplers d2.suffixOpt) ∧
  (∀ i, i < (sortedResourcesOf sortf d1.resources).length →
    findAssignedSampler d1.useCombinedTextureSamplers d1.suffixOpt
      (sortedResourcesOf sortf d1.resources) (resourceOffsetsOf d1.resources)
      ((sortedResourcesOf sortf d1.resources).getD i default) =
    findAssignedSampler d2.useCombinedTextureSamplers d2.suffixOpt
      (sortedResourcesOf sortf d2.resources) (resourceOffsetsOf d2.resources)
      ((sortedResourcesOf sortf d2.resources).getD i default))

instance (sortf : List Nat → List Nat) (d1 d2 : PRSDesc) :
    Decidable (RenameCompatible sortf d1 d2) := by
  unfold RenameCompatible
  infer_instance

/-- Two descriptions whose resources agree classwise but whose resource at
position i0 changed its array size. -/
def SameExceptSizeAt (d1 d2 : PRSDesc) (i0 : Nat) : Prop :=
  d1.resources.length = d2.resources.length ∧
  i0 < d1.resources.length ∧
  (∀ i, i < d1.resources.length →
    (d1.resources.getD i default).varType = (d2.resources.getD i default).varType) ∧
  (d1.resources.getD i0 default).arraySize ≠ (d2.resources.getD i0 default).arraySize

instance (d1 d2 : PRSDesc) (i0 : Nat) : Decidable (SameExceptSizeAt d1 d2 i0) := by
  unfold SameExceptSizeAt
  infer_instance

/-! ## Concrete instances used by witnesses and counterexamples -/

/-- A trivial hash model (enough to instantiate the abstract combiners). -/
def hashModelZero : HashModel :=
  { computeHash3 := fun _ _ _ => 0, hashCombine := fun _ _ => 0 }

/-- Flags all clear. -/
def noFlags : ResFlags :=
  { noDynamicBuffers := false, formattedBuffer := false, runtimeArray := false }

/-- A Mutable-class sampler slot description. -/
def mutableSamplerDesc : PipelineResourceDesc :=
  { name := "s", shaderStages := 1, arraySize := 1, resourceType := .sampler,
    varType := .mutableVar, flags := noFlags }

/-- A Dynamic-class sampler slot description. -/
def dynamicSamplerDesc : PipelineResourceDesc :=
  { name := "s", shaderStages := 1, arraySize := 1, resourceType := .sampler,
    varType := .dynamicVar, flags := noFlags }

/-- A Mutable-class texture-SRV slot description. -/
def mutableTexDesc : PipelineResourceDesc :=
  { name := "t", shaderStages := 1, arraySize := 1, resourceType := .textureSRV,
    varType := .mutableVar, flags := noFlags }

/-- Two distinct sampler objects. -/
def samplerObjB : DevObj :=
  { id := 1, kind := .sampler }

/-- The second sampler object. -/
def samplerObjC : DevObj :=
  { id := 2, kind := .sampler }

/-- Two distinct texture-view objects of the expected view type. -/
def texViewObjB : DevObj :=
  { id := 3, kind := .textureView, viewType := 0 }

/-- The second texture-view object. -/
def texViewObjC : DevObj :=
  { id := 4, kind := .textureView, viewType := 0 }

/-- The resource description of the signature used by the IsBound instance:
a Mutable texture SRV with array size 2. -/
def resC9 : PipelineResourceDesc :=
  { name := "b", shaderStages := 1, arraySize := 2, resourceType := .textureSRV,
    varType := .mutableVar, flags := noFlags }

/-- Its layout attributes: SRB root index 0, offset 0 from table start. -/
def attrC9 : ResourceAttribs :=
  { bindPoint := 0, space := 0, samplerInd := invalidSamplerInd, srbRootIndex := 0,
    srbOffsetFromTableStart := 0, sigRootIndex := invalidSigRootIndex,
    sigOffsetFromTableStart := invalidOffset, imtblSamplerAssigned := false,
    isRootView := false }

/-- A signature with the single resource above. -/
def sigC9 : Signature :=
  { resources := [resC9], immutableSamplers := [], combinedSamplerSuffixOpt := none,
    bindingIndex := 0, resourceOffsets := [0, 0, 1, 1], resourceAttribs := [attrC9],
    imtblSamplerAttribs := [], rootParams := {}, totalSrvCbvUavSlots := [0, 0],
    totalSamplerSlots := [0, 0] }

/-- An SRB cache for it: one root table of three entries in which only entry 2
is bound.  The addressed slot of (ArrayIndex 1, ResIndex 0) is entry 1. -/
def cacheC9 : ResourceCache :=
  { tables := [{ resources := [emptyCachedResource, emptyCachedResource,
      { typ := some .textureSRV, pObject := some texViewObjB, cpuDescriptorHandle := 5 }] }],
    boundDynamicCBsCounter := 0, contentType := .srb }

/-- A Static constant buffer. -/
def resStaticC : PipelineResourceDesc :=
  { name := "c", shaderStages := 1, arraySize := 1, resourceType := .constantBuffer,
    varType := .staticVar, flags := noFlags }

/-- A Mutable texture UAV named a. -/
def resMutA : PipelineResourceDesc :=
  { name := "a", shaderStages := 1, arraySize := 1, resourceType := .textureUAV,
    varType := .mutableVar, flags := noFlags }

/-- A Mutable buffer SRV named b. -/
def resMutB : PipelineResourceDesc :=
  { name := "b", shaderStages := 1, arraySize := 1, resourceType := .bufferSRV,
    varType := .mutableVar, flags := noFlags }

/-- A description with two Mutable resources (a before b) and a Static one. -/
def dC2 : PRSDesc :=
  { resources := [resMutA, resMutB, resStaticC], immutableSamplers := [],
    bindingIndex := 0, useCombinedTextureSamplers := false, combinedSamplerSuffix := "" }

/-- A concrete descriptor range. -/
def rangeC6 : DescriptorRange :=
  { rangeType := .srv, numDescriptors := 1, baseShaderRegister := 0,
    registerSpace := 0, offsetFromTableStart := 0 }

/-- A concrete root table holding it. -/
def tblC6 : RootParameter :=
  { paramType := .descriptorTable, rootIndex := 0, rootType := .staticRoot,
    visibility := .all, ranges := [some rangeC6], descriptorTableSize := 1 }

/-- A concrete root view. -/
def viewC6 : RootParameter :=
  { paramType := .cbv, rootIndex := 1, rootType := .staticRoot,
    visibility := .all, shaderRegister := 0, registerSpace := 0 }

/-- A concrete manager with one root table and one root view. -/
def mgrC6 : RootParamsManager :=
  { rootTables := [tblC6], rootViews := [viewC6], totalDescriptorRanges := 1 }

/-- A Mutable separate sampler named s. -/
def resSampS : PipelineResourceDesc :=
  { name := "s", shaderStages := 1, arraySize := 1, resourceType := .sampler,
    varType := .mutableVar, flags := noFlags }

/-- A description mixing descriptor-table resources (a texture UAV and a
sampler) with root-view resources (a buffer SRV and a constant buffer). -/
def dC7 : PRSDesc :=
  { resources := [resMutA, resMutB, resStaticC, resSampS], immutableSamplers := [],
    bindingIndex := 0, useCombinedTextureSamplers := false, combinedSamplerSuffix := "" }

/-- A Mutable texture SRV named x on stage 1. -/
def resX1 : PipelineResourceDesc :=
  { name := "x", shaderStages := 1, arraySize := 1, resourceType := .textureSRV,
    varType := .mutableVar, flags := noFlags }

/-- Another Mutable texture SRV with the same name and stage. -/
def resX2 : PipelineResourceDesc :=
  { name := "x", shaderStages := 1, arraySize := 2, resourceType := .textureSRV,
    varType := .mutableVar, flags := noFlags }

/-- A description carrying two same-name, same-stage resources; the modelled
validation accepts it. -/
def dC3 : PRSDesc :=
  { resources := [resX1, resX2], immutableSamplers := [],
    bindingIndex := 0, useCombinedTextureSamplers := false, combinedSamplerSuffix := "" }

/-- An immutable sampler named s. -/
def imtblS : ImmutableSamplerDesc :=
  { shaderStages := 1, samplerOrTextureName := "s", samplerDesc := 0 }

/-- The same immutable sampler renamed t. -/
def imtblT : ImmutableSamplerDesc :=
  { shaderStages := 1, samplerOrTextureName := "t", samplerDesc := 0 }

/-- The sampler resource s renamed t. -/
def resSampT : PipelineResourceDesc :=
  { name := "t", shaderStages := 1, arraySize := 1, resourceType := .sampler,
    varType := .mutableVar, flags := noFlags }

/-- The sampler resource s with its array size changed to 2. -/
def resSampS2 : PipelineResourceDesc :=
  { name := "s", shaderStages := 1, arraySize := 2, resourceType := .sampler,
    varType := .mutableVar, flags := noFlags }

/-- A sampler resource matching the immutable sampler of the same name. -/
def dC4a : PRSDesc :=
  { resources := [resSampS], immutableSamplers := [imtblS],
    bindingIndex := 0, useCombinedTextureSamplers := false, combinedSamplerSuffix := "" }

/-- dC4a with only the resource renamed: the immutable sampler no longer
matches. -/
def dC4b : PRSDesc :=
  { resources := [resSampT], immutableSamplers := [imtblS],
    bindingIndex := 0, useCombinedTextureSamplers := false, combinedSamplerSuffix := "" }

/-- dC4a with resource and immutable sampler renamed consistently. -/
def dC4c : PRSDesc :=
  { resources := [resSampT], immutableSamplers := [imtblT],
    bindingIndex := 0, useCombinedTextureSamplers := false, combinedSamplerSuffix := "" }

/-- dC4a with the resource's array size changed to 2. -/
def dC4d : PRSDesc :=
  { resources := [resSampS2], immutableSamplers := [imtblS],
    bindingIndex := 0, useCombinedTextureSamplers := false, combinedSamplerSuffix := "" }

/-- The empty description. -/
def dEmpty : PRSDesc :=
  { resources := [], immutableSamplers := [], bindingIndex := 0,
    useCombinedTextureSamplers := false, combinedSamplerSuffix := "" }

/-- The state the binding model requires per resource kind (spec section 4.4):
constant buffers read in the constant-buffer state, SRVs in the
shader-resource state, UAVs in the unordered-access state, acceleration
structures in the ray-tracing state. -/
def requiredStateOf : ResType → Nat
  | .constantBuffer => stateConstantBuffer
  | .bufferSRV => stateShaderResource
  | .textureSRV => stateShaderResource
  | .bufferUAV => stateUnorderedAccess
  | .textureUAV => stateUnorderedAccess
  | .accelStruct => stateRayTracing
  | .sampler => 0

/-- A TLAS already in the ray-tracing state. -/
def tlasInState : GpuResource :=
  { id := 7, state := some stateRayTracing }

/-- A buffer already in the unordered-access state. -/
def uavObjC8 : GpuResource :=
  { id := 7, state := some stateUnorderedAccess }

/-- A bound buffer-UAV cache entry on it. -/
def uavEntryC8 : TransRes :=
  { typ := some .bufferUAV, obj := some uavObjC8 }

/-- A transition-walk cache with that one entry. -/
def cacheC8 : TransCache :=
  { tables := [[uavEntryC8]] }

/-- Attributes of the Static constant buffer of the C5 instance: static cache
root index 2 (CBV), SRB root index 0. -/
def attrC5 : ResourceAttribs :=
  { bindPoint := 0, space := 0, samplerInd := invalidSamplerInd, srbRootIndex := 0,
    srbOffsetFromTableStart := 0, sigRootIndex := 2, sigOffsetFromTableStart := 0,
    imtblSamplerAssigned := false, isRootView := false }

/-- A signature with one Static constant buffer. -/
def sigC5 : Signature :=
  { resources := [resStaticC], immutableSamplers := [], combinedSamplerSuffixOpt := none,
    bindingIndex := 0, resourceOffsets := [0, 1, 1, 1], resourceAttribs := [attrC5],
    imtblSamplerAttribs := [], rootParams := {}, totalSrvCbvUavSlots := [0, 0],
    totalSamplerSlots := [0, 0] }

/-- The constant-buffer object bound in both caches. -/
def cbObjC5 : DevObj :=
  { id := 9, kind := .buffer }

/-- The cache entry holding it. -/
def boundCBEntry : CachedResource :=
  { typ := some .constantBuffer, pObject := some cbObjC5, cpuDescriptorHandle := 3 }

/-- The signature's static snapshot cache (artificial root indices 0-3). -/
def srcC5 : ResourceCache :=
  { tables := [emptyRootTableCache, emptyRootTableCache,
      { resources := [boundCBEntry] }, emptyRootTableCache],
    boundDynamicCBsCounter := 0, contentType := .signature }

/-- A binding-context cache already holding the same object. -/
def dstC5 : ResourceCache :=
  { tables := [{ resources := [boundCBEntry] }],
    boundDynamicCBsCounter := 0, contentType := .srb }

/-! # Theorems -/

/-! ## The std::sort model -/

/-- The concrete permutation choice satisfies the std::sort contract. -/
theorem sortChoice_isSortChoice : IsSortChoice sortChoice := by
  intro ks
  constructor
  · simpa [sortChoice] using List.perm_insertionSort (tieRel ks) (List.range ks.length)
  · have hs := List.sorted_insertionSort (tieRel ks) (List.range ks.length)
    refine hs.imp ?_
    intro i j h
    rcases h with h | ⟨h, _⟩
    · exact Nat.le_of_lt h
    · exact Nat.le_of_eq h

/-- With only valid positions, applyPerm is a map of lookups. -/
theorem applyPerm_eq_map [Inhabited α] (idx : List Nat) (l : List α)
    (h : ∀ i ∈ idx, i < l.length) :
    applyPerm idx l = idx.map (fun i => l.getD i default) := by
  induction idx with
  | nil => rfl
  | cons a as ih =>
    have ha : a < l.length := h a (List.mem_cons_self a as)
    have hrest : ∀ i ∈ as, i < l.length := fun i hi => h i (List.mem_cons_of_mem a hi)
    simp only [applyPerm, List.filterMap_cons, List.map_cons] at *
    rw [List.getElem?_eq_getElem ha]
    simp only [ih hrest]
    rw [List.getD_eq_getElem?_getD, List.getElem?_eq_getElem ha]
    rfl

/-- A permutation of all positions reorders the list into a permutation. -/
theorem applyPerm_perm [Inhabited α] (idx : List Nat) (l : List α)
    (hperm : idx.Perm (List.range l.length)) : (applyPerm idx l).Perm l := by
  have hval : ∀ i ∈ idx, i < l.length := fun i hi =>
    List.mem_range.mp (hperm.mem_iff.mp hi)
  rw [applyPerm_eq_map idx l hval]
  have h2 := hperm.map (fun i => l.getD i default)
  have h3 : (List.range l.length).map (fun i => l.getD i default) = l := by
    apply List.ext_getElem
    · simp
    · intro i h1 h2'
      simp [List.getD_eq_getElem?_getD, List.getElem?_eq_getElem h2']
  rw [h3] at h2
  exact h2

/-- The sorted internal copy is a permutation of the caller's resources. -/
theorem sortedResourcesOf_perm (sortf : List Nat → List Nat) (hs : IsSortChoice sortf)
    (rs : List PipelineResourceDesc) : (sortedResourcesOf sortf rs).Perm rs := by
  have h := (hs (rs.map fun r => r.varType.toNat)).1
  rw [List.length_map] at h
  exact applyPerm_perm _ _ h

/-- The sorted internal copy has the caller's resource count. -/
theorem sortedResourcesOf_length (sortf : List Nat → List Nat) (hs : IsSortChoice sortf)
    (rs : List PipelineResourceDesc) : (sortedResourcesOf sortf rs).length = rs.length :=
  (sortedResourcesOf_perm sortf hs rs).length_eq

/-- The sorted internal copy is ordered by variable class. -/
theorem sortedResourcesOf_sorted (sortf : List Nat → List Nat) (hs : IsSortChoice sortf)
    (rs : List PipelineResourceDesc) :
    List.Pairwise (fun a b => a.varType.toNat ≤ b.varType.toNat)
      (sortedResourcesOf sortf rs) := by
  obtain ⟨hperm, hpw⟩ := hs (rs.map fun r => r.varType.toNat)
  rw [List.length_map] at hperm
  unfold sortedResourcesOf applyPerm
  rw [List.pairwise_filterMap]
  refine hpw.imp_of_mem ?_
  intro i j hi hj hrel
  have hiv : i < rs.length := List.mem_range.mp (hperm.mem_iff.mp hi)
  have hjv : j < rs.length := List.mem_range.mp (hperm.mem_iff.mp hj)
  intro x hx y hy
  rw [List.getElem?_eq_getElem hiv] at hx
  rw [List.getElem?_eq_getElem hjv] at hy
  cases hx
  cases hy
  have hki : (rs.map fun r => r.varType.toNat).getD i 0 = rs[i].varType.toNat := by
    rw [List.getD_eq_getElem?_getD, List.getElem?_map, List.getElem?_eq_getElem hiv]
    rfl
  have hkj : (rs.map fun r => r.varType.toNat).getD j 0 = rs[j].varType.toNat := by
    rw [List.getD_eq_getElem?_getD, List.getElem?_map, List.getElem?_eq_getElem hjv]
    rfl
  rw [hki, hkj] at hrel
  exact hrel

/-! ## Claim C2: sorting and the per-class offset table -/

/-- C2 (amended).  For every conforming std::sort behavior and every valid
description, the constructed resource array is ordered by variable class
(Static before Mutable before Dynamic) and the per-class offset table
satisfies offset[c+1] - offset[c] = number of class-c resources in the
description.  (The stable-sort part of the original claim is refuted by
C2_counterexample: the source uses std::sort, which need not be stable.) -/
theorem copyDescription_sorts_and_offsets (sortf : List Nat → List Nat)
    (hs : IsSortChoice sortf) (d : PRSDesc) (_hv : ValidDesc d) :
    List.Pairwise (fun a b => a.varType.toNat ≤ b.varType.toNat)
      (buildSignature sortf d).resources ∧
    ∀ c : VarType,
      (buildSignature sortf d).resourceOffsets.getD (c.toNat + 1) 0 -
        (buildSignature sortf d).resourceOffsets.getD c.toNat 0 =
        countOfClass d.resources c.toNat := by
  constructor
  · have h1 : (buildSignature sortf d).resources = sortedResourcesOf sortf d.resources := rfl
    rw [h1]
    exact sortedResourcesOf_sorted sortf hs d.resources
  · intro c
    have h2 : (buildSignature sortf d).resourceOffsets = resourceOffsetsOf d.resources := rfl
    rw [h2]
    cases c <;> simp [resourceOffsetsOf, VarType.toNat]

/-- Witness for C2 at the concrete sort choice and description. -/
theorem copyDescription_sorts_and_offsets_witness :
    IsSortChoice sortChoice ∧ ValidDesc dC2 ∧
    (List.Pairwise (fun a b => a.varType.toNat ≤ b.varType.toNat)
      (buildSignature sortChoice dC2).resources ∧
    ∀ c : VarType,
      (buildSignature sortChoice dC2).resourceOffsets.getD (c.toNat + 1) 0 -
        (buildSignature sortChoice dC2).resourceOffsets.getD c.toNat 0 =
        countOfClass dC2.resources c.toNat) :=
  ⟨sortChoice_isSortChoice, by decide,
   copyDescription_sorts_and_offsets sortChoice sortChoice_isSortChoice dC2 (by decide)⟩

/-- C2 counterexample: the claim as stated also asserts stability (resources
of one class keep their relative description order), which fails for a
conforming std::sort behavior: on dC2 the two Mutable resources come out in
the order b, a. -/
theorem copyDescription_stable_counterexample :
    ¬ (∀ sortf : List Nat → List Nat, IsSortChoice sortf →
        ∀ d : PRSDesc, ValidDesc d →
        (List.Pairwise (fun a b => a.varType.toNat ≤ b.varType.toNat)
          (buildSignature sortf d).resources ∧
        (∀ c : VarType,
          (buildSignature sortf d).resources.filter (fun r => r.varType = c) =
            d.resources.filter (fun r => r.varType = c)) ∧
        (∀ c : VarType,
          (buildSignature sortf d).resourceOffsets.getD (c.toNat + 1) 0 -
            (buildSignature sortf d).resourceOffsets.getD c.toNat 0 =
            countOfClass d.resources c.toNat))) := by
  intro h
  have h2 := (h sortChoice sortChoice_isSortChoice dC2 (by decide)).2.1 VarType.mutableVar
  exact absurd h2 (by decide)

/-! ## Claim C6: Extend preserves existing root parameters -/

/-- The effect of Extend on an existing root table. -/
theorem extend_getD_table (m : RootParamsManager) (net nev ner tgt : Nat)
    (rt : Nat) (hrt : rt < m.rootTables.length) :
    (m.extend net nev ner tgt).rootTables.getD rt default =
      (if rt = tgt then
        { m.rootTables.getD rt default with
          ranges := (m.rootTables.getD rt default).ranges ++ List.replicate ner none }
      else m.rootTables.getD rt default) := by
  unfold RootParamsManager.extend
  have hlen : rt < (m.rootTables.mapIdx (fun rt tbl =>
      if rt = tgt then { tbl with ranges := tbl.ranges ++ List.replicate ner none }
      else tbl)).length := by
    rw [List.length_mapIdx]
    exact hrt
  rw [List.getD_append _ _ _ _ hlen]
  rw [List.getD_eq_getElem?_getD, List.getElem?_eq_getElem hlen]
  rw [List.getElem_mapIdx]
  rw [List.getD_eq_getElem?_getD, List.getElem?_eq_getElem hrt]
  rfl

/-- Extend on the designated table only appends uninitialized range slots. -/
theorem extend_getD_table_eq (m : RootParamsManager) (net nev ner : Nat)
    (rt : Nat) (hrt : rt < m.rootTables.length) :
    (m.extend net nev ner rt).rootTables.getD rt default =
      { m.rootTables.getD rt default with
        ranges := (m.rootTables.getD rt default).ranges ++ List.replicate ner none } := by
  rw [extend_getD_table m net nev ner rt rt hrt, if_pos rfl]

/-- Extend leaves every non-designated existing table unchanged. -/
theorem extend_getD_table_ne (m : RootParamsManager) (net nev ner tgt : Nat)
    (rt : Nat) (hrt : rt < m.rootTables.length) (hne : rt ≠ tgt) :
    (m.extend net nev ner tgt).rootTables.getD rt default = m.rootTables.getD rt default := by
  rw [extend_getD_table m net nev ner tgt rt hrt, if_neg hne]

/-- The effect of Extend on an existing root view. -/
theorem extend_getD_view (m : RootParamsManager) (net nev ner tgt : Nat)
    (rv : Nat) (hrv : rv < m.rootViews.length) :
    (m.extend net nev ner tgt).rootViews.getD rv default = m.rootViews.getD rv default := by
  unfold RootParamsManager.extend
  exact List.getD_append _ _ _ _ hrv

/-- C6 (confirmed).  After RootParamsManager::Extend, every previously
assigned root parameter keeps its local root index, root type, parameter
type, shader visibility, cached descriptor-table size and the contents of
all previously set descriptor ranges; root views are copied unchanged; and
only the one designated descriptor table can receive extra ranges. -/
theorem rootParams_extend_preserves (m : RootParamsManager) (net nev ner tgt : Nat) :
    (∀ rt, rt < m.rootTables.length →
      (((m.extend net nev ner tgt).rootTables.getD rt default).rootIndex =
          (m.rootTables.getD rt default).rootIndex ∧
        ((m.extend net nev ner tgt).rootTables.getD rt default).rootType =
          (m.rootTables.getD rt default).rootType ∧
        ((m.extend net nev ner tgt).rootTables.getD rt default).paramType =
          (m.rootTables.getD rt default).paramType ∧
        ((m.extend net nev ner tgt).rootTables.getD rt default).visibility =
          (m.rootTables.getD rt default).visibility ∧
        ((m.extend net nev ner tgt).rootTables.getD rt default).descriptorTableSize =
          (m.rootTables.getD rt default).descriptorTableSize) ∧
      (∀ k, k < (m.rootTables.getD rt default).ranges.length →
        ((m.extend net nev ner tgt).rootTables.getD rt default).ranges.getD k none =
          (m.rootTables.getD rt default).ranges.getD k none)) ∧
    (∀ rv, rv < m.rootViews.length →
      (m.extend net nev ner tgt).rootViews.getD rv default = m.rootViews.getD rv default) ∧
    (∀ rt, rt < m.rootTables.length → rt ≠ tgt →
      (m.extend net nev ner tgt).rootTables.getD rt default = m.rootTables.getD rt default) := by
  refine ⟨?_, ?_, ?_⟩
  · intro rt hrt
    by_cases he : rt = tgt
    · subst he
      rw [extend_getD_table_eq m net nev ner rt hrt]
      refine ⟨⟨rfl, rfl, rfl, rfl, rfl⟩, ?_⟩
      intro k hk
      show ((m.rootTables.getD rt default).ranges ++ List.replicate ner none).getD k none =
        (m.rootTables.getD rt default).ranges.getD k none
      rw [List.getD_append _ _ _ _ hk]
    · rw [extend_getD_table_ne m net nev ner tgt rt hrt he]
      exact ⟨⟨rfl, rfl, rfl, rfl, rfl⟩, fun k _ => rfl⟩
  · intro rv hrv
    exact extend_getD_view m net nev ner tgt rv hrv
  · intro rt hrt he
    exact extend_getD_table_ne m net nev ner tgt rt hrt he

/-- Witness for C6 on a concrete manager with one table and one view. -/
theorem rootParams_extend_preserves_witness :
    (0 : Nat) < mgrC6.rootTables.length ∧ (0 : Nat) < mgrC6.rootViews.length ∧
    ((mgrC6.extend 1 1 2 0).rootTables.getD 0 default).rootIndex =
      (mgrC6.rootTables.getD 0 default).rootIndex ∧
    (mgrC6.extend 1 1 2 0).rootViews.getD 0 default = mgrC6.rootViews.getD 0 default :=
  ⟨by decide, by decide,
   ((rootParams_extend_preserves mgrC6 1 1 2 0).1 0 (by decide)).1.1,
   (rootParams_extend_preserves mgrC6 1 1 2 0).2.1 0 (by decide)⟩

/-! ## Claim C9: IsBound -/

/-- C9: evaluation of IsBound at the failing input.  For ArrayIndex 1 of
resource 0 the addressed cache entry (offset 0 + 1 = 1) is empty, yet
IsBound returns true because the source adds ArrayIndex a second time and
tests entry 2. -/
theorem isBound_double_arrayIndex :
    Signature.isBound sigC9 1 0 cacheC9 = true ∧
    (cacheC9.getRes 0 1).pObject = none ∧
    1 < (cacheC9.tables.getD 0 emptyRootTableCache).resources.length := by
  refine ⟨by decide, by decide, by decide⟩

/-! ## Claim C10: the content hash -/

/-- C10 (confirmed).  For a description with zero resources and zero
immutable samplers, the computed content hash is exactly 0; otherwise the
hash is the fold seeded with the resource count, the sampler count and the
binding index, combined with every resource's and every sampler's hashed
attributes. -/
theorem calculateHash_empty_and_seed (H : HashModel) (sortf : List Nat → List Nat)
    (hs : IsSortChoice sortf) (d : PRSDesc) :
    calculateHash H (buildSignature sortf d) =
      if d.resources.length = 0 ∧ d.immutableSamplers.length = 0 then 0
      else
        d.immutableSamplers.foldl
          (fun h s => hashCombineList H h [s.shaderStages, s.samplerDesc])
          ((List.range d.resources.length).foldl (fun h i =>
            hashCombineList H h
              (resourceHashValues ((buildSignature sortf d).resources.getD i default)
                ((buildSignature sortf d).resourceAttribs.getD i default)))
            (H.computeHash3 d.resources.length d.immutableSamplers.length d.bindingIndex)) := by
  have hlen : (buildSignature sortf d).resources.length = d.resources.length := by
    have h1 : (buildSignature sortf d).resources = sortedResourcesOf sortf d.resources := rfl
    rw [h1]
    exact sortedResourcesOf_length sortf hs d.resources
  have hsam : (buildSignature sortf d).immutableSamplers = d.immutableSamplers := rfl
  unfold calculateHash
  rw [hlen, hsam]
  rfl

/-- Witness for C10: the empty description hashes to 0. -/
theorem calculateHash_empty_and_seed_witness :
    calculateHash hashModelZero (buildSignature sortChoice dEmpty) = 0 := by
  have h := calculateHash_empty_and_seed hashModelZero sortChoice sortChoice_isSortChoice dEmpty
  simpa using h

/-! ## Claim C1: the rebind policy -/

/-- C1 (amended).  Binding non-null B and then a different non-null C of the
correct kind to a Mutable-class slot logs a rebind-conflict error and leaves
the slot holding B: the new object is ignored, not written.  Doing the same
to a Dynamic-class slot logs nothing and leaves the slot holding C.  This
holds for sampler slots (CacheSampler) and resource-view slots
(CacheResourceView, with the no-op paired-sampler procedure of uncombined
slots). -/
theorem rebind_keeps_old_object :
    (∀ (resDesc : PipelineResourceDesc) (B C : DevObj),
      resDesc.varType = .mutableVar → B.kind = .sampler → C.kind = .sampler → B ≠ C →
      cacheSampler resDesc (cacheSampler resDesc emptyCachedResource B).1 C =
        ((cacheSampler resDesc emptyCachedResource B).1, [LogMsg.rebindConflictError]) ∧
      (cacheSampler resDesc emptyCachedResource B).1.pObject = some B) ∧
    (∀ (resDesc : PipelineResourceDesc) (B C : DevObj),
      resDesc.varType = .dynamicVar → B.kind = .sampler → C.kind = .sampler →
      (cacheSampler resDesc (cacheSampler resDesc emptyCachedResource B).1 C).1.pObject =
        some C ∧
      (cacheSampler resDesc (cacheSampler resDesc emptyCachedResource B).1 C).2 = []) ∧
    (∀ (resDesc : PipelineResourceDesc) (B C : DevObj) (k : ObjKind) (vt : Nat)
      (proc : DevObj → List LogMsg),
      resDesc.varType = .mutableVar → B.kind = k → C.kind = k →
      B.viewType = vt → C.viewType = vt → B ≠ C → (∀ o, proc o = []) →
      cacheResourceView k vt resDesc
          (cacheResourceView k vt resDesc emptyCachedResource proc B).1 proc C =
        ((cacheResourceView k vt resDesc emptyCachedResource proc B).1,
          [LogMsg.rebindConflictError]) ∧
      (cacheResourceView k vt resDesc emptyCachedResource proc B).1.pObject = some B) ∧
    (∀ (resDesc : PipelineResourceDesc) (B C : DevObj) (k : ObjKind) (vt : Nat)
      (proc : DevObj → List LogMsg),
      resDesc.varType = .dynamicVar → B.kind = k → C.kind = k →
      B.viewType = vt → C.viewType = vt → (∀ o, proc o = []) →
      (cacheResourceView k vt resDesc
          (cacheResourceView k vt resDesc emptyCachedResource proc B).1 proc C).1.pObject =
        some C ∧
      (cacheResourceView k vt resDesc
          (cacheResourceView k vt resDesc emptyCachedResource proc B).1 proc C).2 = []) := by
  refine ⟨?_, ?_, ?_, ?_⟩
  · intro resDesc B C hvt hB hC hne
    have hBC : some B ≠ some C := fun h => hne (Option.some.injEq B C ▸ h)
    simp [cacheSampler, castKind, hB, hC, hvt, emptyCachedResource, hBC]
  · intro resDesc B C hvt hB hC
    simp [cacheSampler, castKind, hB, hC, hvt, emptyCachedResource]
  · intro resDesc B C k vt proc hvar hB hC hvB hvC hne hproc
    have hBC : some B ≠ some C := fun h => hne (Option.some.injEq B C ▸ h)
    simp [cacheResourceView, castKind, verifyResourceViewBinding, hB, hC, hvar, hvB, hvC,
      emptyCachedResource, hproc, hBC]
  · intro resDesc B C k vt proc hvar hB hC hvB hvC hproc
    simp [cacheResourceView, castKind, verifyResourceViewBinding, hB, hC, hvar, hvB, hvC,
      emptyCachedResource, hproc]

/-- Witness for C1 at concrete sampler objects. -/
theorem rebind_keeps_old_object_witness :
    mutableSamplerDesc.varType = .mutableVar ∧
    samplerObjB.kind = .sampler ∧ samplerObjC.kind = .sampler ∧ samplerObjB ≠ samplerObjC ∧
    (cacheSampler mutableSamplerDesc emptyCachedResource samplerObjB).1.pObject =
      some samplerObjB :=
  ⟨rfl, rfl, rfl, by decide,
   (rebind_keeps_old_object.1 mutableSamplerDesc samplerObjB samplerObjC rfl rfl rfl
     (by decide)).2⟩

/-- C1 counterexample: the claim as stated says the Mutable-class slot ends
holding the new object C; on the code the slot still holds B. -/
theorem rebind_counterexample :
    ¬ (∀ (resDesc : PipelineResourceDesc) (B C : DevObj),
        resDesc.varType = .mutableVar → B.kind = .sampler → C.kind = .sampler → B ≠ C →
        (cacheSampler resDesc (cacheSampler resDesc emptyCachedResource B).1 C).1.pObject =
          some C) := by
  intro h
  have h2 := h mutableSamplerDesc samplerObjB samplerObjC rfl rfl rfl (by decide)
  exact absurd h2 (by decide)

/-! ## Claim C8: transition mode -/

/-- C8 (amended).  In transition mode every bound buffer-UAV or texture-UAV
entry whose resource is in a known state gets a TransitionResource call to
the unordered-access state even when it already is in that state (and this
call reaches the TransitionResources output for every walked table entry);
constant buffers and buffer SRVs get a call only when not already in the
required state, texture SRVs only when in neither the shader-resource nor
the input-attachment state; acceleration structures behave like UAVs: a call
to the ray-tracing state is issued whenever their state is known, even when
they already are in it. -/
theorem transition_mode_calls :
    (∀ o : GpuResource,
      transitionResource { typ := some .bufferUAV, obj := some o } =
        (if o.isInKnownState then [{ objId := o.id, targetState := stateUnorderedAccess }]
         else []) ∧
      transitionResource { typ := some .textureUAV, obj := some o } =
        (if o.isInKnownState then [{ objId := o.id, targetState := stateUnorderedAccess }]
         else []) ∧
      transitionResource { typ := some .constantBuffer, obj := some o } =
        (if o.isInKnownState && !o.checkState stateConstantBuffer then
          [{ objId := o.id, targetState := stateConstantBuffer }]
         else []) ∧
      transitionResource { typ := some .bufferSRV, obj := some o } =
        (if o.isInKnownState && !o.checkState stateShaderResource then
          [{ objId := o.id, targetState := stateShaderResource }]
         else []) ∧
      transitionResource { typ := some .textureSRV, obj := some o } =
        (if o.isInKnownState &&
            !o.checkAnyState (stateShaderResource ||| stateInputAttachment) then
          [{ objId := o.id, targetState := stateShaderResource }]
         else []) ∧
      transitionResource { typ := some .accelStruct, obj := some o } =
        (if o.isInKnownState then [{ objId := o.id, targetState := stateRayTracing }]
         else [])) ∧
    (∀ (m : RootParamsManager) (cache : TransCache) (rp : RootParameter)
      (range : DescriptorRange) (dIdx : Nat) (o : GpuResource),
      rp ∈ m.rootTables → some range ∈ rp.ranges → dIdx < range.numDescriptors →
      ((cache.tables.getD rp.rootIndex []).getD (range.offsetFromTableStart + dIdx) {} =
          { typ := some .bufferUAV, obj := some o } ∨
        (cache.tables.getD rp.rootIndex []).getD (range.offsetFromTableStart + dIdx) {} =
          { typ := some .textureUAV, obj := some o }) →
      o.isInKnownState = true →
      ({ objId := o.id, targetState := stateUnorderedAccess } : TransitionCall) ∈
        transitionResources m cache) := by
  constructor
  · intro o
    exact ⟨rfl, rfl, rfl, rfl, rfl, rfl⟩
  · intro m cache rp range dIdx o hrp hrange hd hentry hknown
    unfold transitionResources
    rw [List.mem_flatMap]
    refine ⟨rp, hrp, ?_⟩
    unfold tableTransitions
    rw [List.mem_flatMap]
    refine ⟨some range, hrange, ?_⟩
    rw [List.mem_flatMap]
    refine ⟨dIdx, List.mem_range.mpr hd, ?_⟩
    rcases hentry with he | he <;> rw [he] <;> simp [transitionResource, hknown]

/-- Witness for C8 on a concrete one-table layout: the buffer is already in
the unordered-access state and the call is issued anyway. -/
theorem transition_mode_calls_witness :
    tblC6 ∈ mgrC6.rootTables ∧ some rangeC6 ∈ tblC6.ranges ∧
    (0 : Nat) < rangeC6.numDescriptors ∧
    ({ objId := 7, targetState := stateUnorderedAccess } : TransitionCall) ∈
      transitionResources mgrC6 cacheC8 :=
  ⟨by decide, by decide, by decide,
   transition_mode_calls.2 mgrC6 cacheC8 tblC6 rangeC6 0 uavObjC8
     (by decide) (by decide) (by decide) (Or.inl (by decide)) (by decide)⟩

/-- C8 counterexample: the claim as stated says acceleration structures get
a transition call only when not already in the required (ray-tracing)
state; the code issues the call whenever the state is known, also when the
TLAS already is in the ray-tracing state. -/
theorem transition_counterexample :
    ¬ (∀ (res : TransRes) (o : GpuResource) (t : ResType),
        res.typ = some t → res.obj = some o →
        (t = .constantBuffer ∨ t = .bufferSRV ∨ t = .textureSRV ∨ t = .accelStruct) →
        transitionResource res ≠ [] → o.checkState (requiredStateOf t) = false) := by
  intro h
  have h2 := h { typ := some .accelStruct, obj := some tlasInState } tlasInState .accelStruct
    rfl rfl (by decide) (by decide)
  exact absurd h2 (by decide)

/-! ## Claim C5: idempotent static-resource initialization -/

/-- After any call through InitializeStaticSRBResourcesImpl the
StaticResourcesInitialized flag is set. -/
theorem initImpl_sets_flag (sig : Signature) (srcCache : ResourceCache) (srb : SRB) :
    (initializeStaticSRBResourcesImpl sig srcCache srb).1.staticResourcesInitialized = true := by
  unfold initializeStaticSRBResourcesImpl
  by_cases h : srb.staticResourcesInitialized
  · rw [if_pos h]
    exact h
  · rw [if_neg h]

/-- A binding object whose flag is set returns unchanged with a warning. -/
theorem initImpl_of_flag (sig : Signature) (srcCache : ResourceCache) (srb : SRB)
    (h : srb.staticResourcesInitialized = true) :
    initializeStaticSRBResourcesImpl sig srcCache srb =
      (srb, [LogMsg.alreadyInitializedWarning]) := by
  unfold initializeStaticSRBResourcesImpl
  rw [if_pos h]

/-- The copy loop leaves the destination cache unchanged when every visited
slot already holds the snapshot's object. -/
theorem initStatic_fold_skips (sig : Signature) (srcCache : ResourceCache)
    (l : List (Nat × Nat)) (dst : ResourceCache) (msgs : List LogMsg)
    (hagree : ∀ p ∈ l,
      (dst.getRes ((sig.resourceAttribs.getD p.1 default).rootIndexOf dst.contentType)
          ((sig.resourceAttribs.getD p.1 default).offsetOf dst.contentType + p.2)).pObject =
      (srcCache.getRes ((sig.resourceAttribs.getD p.1 default).rootIndexOf srcCache.contentType)
          ((sig.resourceAttribs.getD p.1 default).offsetOf srcCache.contentType + p.2)).pObject) :
    (l.foldl (initStaticStep sig srcCache) (dst, msgs)).1 = dst := by
  induction l generalizing msgs with
  | nil => rfl
  | cons p rest ih =>
    have hp := hagree p (List.mem_cons_self p rest)
    have hrest : ∀ q ∈ rest, _ := fun q hq => hagree q (List.mem_cons_of_mem p hq)
    rw [List.foldl_cons]
    have hstep : initStaticStep sig srcCache (dst, msgs) p =
        (dst, msgs ++ (if (srcCache.getRes
            ((sig.resourceAttribs.getD p.1 default).rootIndexOf srcCache.contentType)
            ((sig.resourceAttribs.getD p.1 default).offsetOf srcCache.contentType + p.2)).pObject
            = none then [LogMsg.unassignedStaticError p.1 p.2] else [])) := by
      unfold initStaticStep
      rw [if_neg]
      intro hcontra
      exact hcontra hp
    rw [hstep]
    exact ih _ hrest

/-- C5 (confirmed, and strengthened to the mechanism level).  A second call
to InitializeStaticSRBResources through the binding object returns the
state unchanged with only a warning (no error); and the underlying copy
loop never changes a destination cache whose visited slots already hold the
snapshot's objects (equal objects are skipped by identity). -/
theorem initializeStaticResources_idempotent :
    (∀ (sig : Signature) (srcCache : ResourceCache) (srb : SRB),
      initializeStaticSRBResourcesImpl sig srcCache
          (initializeStaticSRBResourcesImpl sig srcCache srb).1 =
        ((initializeStaticSRBResourcesImpl sig srcCache srb).1,
          [LogMsg.alreadyInitializedWarning]) ∧
      ∀ msg ∈ (initializeStaticSRBResourcesImpl sig srcCache
          (initializeStaticSRBResourcesImpl sig srcCache srb).1).2, msg.isError = false) ∧
    (∀ (sig : Signature) (srcCache dstCache : ResourceCache),
      (∀ p ∈ staticSlotPairs sig,
        (dstCache.getRes
            ((sig.resourceAttribs.getD p.1 default).rootIndexOf dstCache.contentType)
            ((sig.resourceAttribs.getD p.1 default).offsetOf dstCache.contentType + p.2)).pObject =
        (srcCache.getRes
            ((sig.resourceAttribs.getD p.1 default).rootIndexOf srcCache.contentType)
            ((sig.resourceAttribs.getD p.1 default).offsetOf srcCache.contentType + p.2)).pObject) →
      (initializeStaticSRBResources sig srcCache dstCache).1 = dstCache) := by
  constructor
  · intro sig srcCache srb
    have hflag := initImpl_sets_flag sig srcCache srb
    have heq := initImpl_of_flag sig srcCache _ hflag
    constructor
    · exact heq
    · intro msg hmsg
      rw [heq] at hmsg
      simp only [List.mem_singleton] at hmsg
      rw [hmsg]
      rfl
  · intro sig srcCache dstCache hagree
    exact initStatic_fold_skips sig srcCache (staticSlotPairs sig) dstCache [] hagree

/-! ## Claim C7: descriptor-table packing -/

/-- Overwriting the slot just past a list rewrites the appended element. -/
theorem set_append_length (l : List α) (x y : α) :
    (l ++ [x]).set l.length y = l ++ [y] := by
  induction l with
  | nil => rfl
  | cons a as ih => simp [List.set_cons_succ, ih]

/-- Appending a range that starts at the current total keeps packing. -/
theorem rangesPackedFrom_append (l : List (Option DescriptorRange)) (ofs : Nat)
    (r : DescriptorRange) (hp : rangesPackedFrom ofs l)
    (hr : r.offsetFromTableStart = ofs + sumCountsO l) :
    rangesPackedFrom ofs (l ++ [some r]) := by
  induction l generalizing ofs with
  | nil =>
    refine ⟨?_, trivial⟩
    simpa [sumCountsO] using hr
  | cons ro rest ih =>
    match ro with
    | none => exact absurd hp (by simp [rangesPackedFrom])
    | some q =>
      obtain ⟨hq, hrest⟩ := hp
      refine ⟨hq, ih (ofs + q.numDescriptors) hrest ?_⟩
      rw [hr]
      simp [sumCountsO]
      omega

/-- sumCountsO distributes over append. -/
theorem sumCountsO_append (l1 l2 : List (Option DescriptorRange)) :
    sumCountsO (l1 ++ l2) = sumCountsO l1 + sumCountsO l2 := by
  simp [sumCountsO]

/-- The one-table effect of AllocateResourceSlot (append one uninitialized
range, then initialize it at offset = current table size) preserves the
table invariant. -/
theorem tableInv_allocStep (q : RootParameter) (hq : TableInv q) (typ : RangeType)
    (reg space count : Nat) :
    TableInv (RootParameter.setDescriptorRange { q with ranges := q.ranges ++ [none] }
      q.ranges.length typ reg space count q.descriptorTableSize) := by
  obtain ⟨hpack, hsize⟩ := hq
  unfold RootParameter.setDescriptorRange
  constructor
  · show rangesPackedFrom 0 ((q.ranges ++ [none]).set q.ranges.length _)
    rw [set_append_length]
    exact rangesPackedFrom_append q.ranges 0 _ hpack (by simp [hsize])
  · show max q.descriptorTableSize (q.descriptorTableSize + count) =
      sumCountsO ((q.ranges ++ [none]).set q.ranges.length _)
    rw [set_append_length, sumCountsO_append, ← hsize]
    simp [sumCountsO]

/-- Every slot of a packed range list is initialized with the prefix-sum
offset. -/
theorem rangesPackedFrom_getD (l : List (Option DescriptorRange)) (ofs : Nat)
    (hp : rangesPackedFrom ofs l) :
    ∀ k, k < l.length → ∃ r, l.getD k none = some r ∧
      r.offsetFromTableStart = ofs + sumCountsO (l.take k) := by
  induction l generalizing ofs with
  | nil => intro k hk; exact absurd hk (by simp)
  | cons ro rest ih =>
    match ro with
    | none => exact absurd hp (by simp [rangesPackedFrom])
    | some q =>
      obtain ⟨hq, hrest⟩ := hp
      intro k hk
      match k with
      | 0 => exact ⟨q, rfl, by simp [sumCountsO, hq]⟩
      | Nat.succ k2 =>
        obtain ⟨r, hr1, hr2⟩ := ih (ofs + q.numDescriptors) hrest k2 (by simpa using hk)
        refine ⟨r, hr1, ?_⟩
        rw [hr2]
        simp [sumCountsO]
        omega

/-- Every range of a packed list starts at or after the base offset. -/
theorem rangesPackedFrom_lower (l : List (Option DescriptorRange)) (ofs : Nat)
    (hp : rangesPackedFrom ofs l) :
    ∀ r ∈ l.reduceOption, ofs ≤ r.offsetFromTableStart := by
  induction l generalizing ofs with
  | nil => intro r hr; exact absurd hr (by simp)
  | cons ro rest ih =>
    match ro with
    | none => exact absurd hp (by simp [rangesPackedFrom])
    | some q =>
      obtain ⟨hq, hrest⟩ := hp
      intro r hr
      rw [List.reduceOption_cons_of_some] at hr
      rcases List.mem_cons.mp hr with h | h
      · rw [h, hq]
      · exact le_trans (Nat.le_add_right ofs q.numDescriptors) (ih _ hrest r h)

/-- Packed ranges occupy pairwise disjoint intervals. -/
theorem rangesPackedFrom_disjoint (l : List (Option DescriptorRange)) (ofs : Nat)
    (hp : rangesPackedFrom ofs l) :
    List.Pairwise (fun a b =>
      a.offsetFromTableStart + a.numDescriptors ≤ b.offsetFromTableStart)
      l.reduceOption := by
  induction l generalizing ofs with
  | nil => exact List.Pairwise.nil
  | cons ro rest ih =>
    match ro with
    | none => exact absurd hp (by simp [rangesPackedFrom])
    | some q =>
      obtain ⟨hq, hrest⟩ := hp
      rw [List.reduceOption_cons_of_some]
      refine List.Pairwise.cons ?_ (ih _ hrest)
      intro b hb
      rw [hq]
      exact rangesPackedFrom_lower rest _ hrest b hb

/-- Every range of a packed list ends at or before base + total. -/
theorem rangesPackedFrom_upper (l : List (Option DescriptorRange)) (ofs : Nat)
    (hp : rangesPackedFrom ofs l) :
    ∀ r ∈ l.reduceOption,
      r.offsetFromTableStart + r.numDescriptors ≤ ofs + sumCountsO l := by
  induction l generalizing ofs with
  | nil => intro r hr; exact absurd hr (by simp)
  | cons ro rest ih =>
    match ro with
    | none => exact absurd hp (by simp [rangesPackedFrom])
    | some q =>
      obtain ⟨hq, hrest⟩ := hp
      intro r hr
      rw [List.reduceOption_cons_of_some] at hr
      rcases List.mem_cons.mp hr with h | h
      · rw [h, hq]
        simp [sumCountsO]
      · have h2 := ih _ hrest r h
        have h3 : ofs + q.numDescriptors + sumCountsO rest = ofs + sumCountsO (some q :: rest) := by
          simp [sumCountsO]
          omega
        omega

/-- A nonempty packed list attains base + total as the end of its last
range. -/
theorem rangesPackedFrom_attained (l : List (Option DescriptorRange)) (ofs : Nat)
    (hp : rangesPackedFrom ofs l) (hne : l ≠ []) :
    ∃ r ∈ l.reduceOption,
      r.offsetFromTableStart + r.numDescriptors = ofs + sumCountsO l := by
  induction l generalizing ofs with
  | nil => exact absurd rfl hne
  | cons ro rest ih =>
    match ro with
    | none => exact absurd hp (by simp [rangesPackedFrom])
    | some q =>
      obtain ⟨hq, hrest⟩ := hp
      match rest with
      | [] =>
        refine ⟨q, by simp, ?_⟩
        rw [hq]
        simp [sumCountsO]
      | b :: rest2 =>
        obtain ⟨r, hr1, hr2⟩ := ih _ hrest (by simp)
        refine ⟨r, ?_, ?_⟩
        · rw [List.reduceOption_cons_of_some]
          exact List.mem_cons_of_mem q hr1
        · rw [hr2]
          simp [sumCountsO]
          omega

/-- Extend with no extra tables or ranges leaves the table array unchanged. -/
theorem extend_tables_of_zero (m : RootParamsManager) (nev tgt : Nat) :
    (m.extend 0 nev 0 tgt).rootTables = m.rootTables := by
  unfold RootParamsManager.extend
  simp only [List.replicate, List.append_nil]
  apply List.ext_getElem
  · simp
  · intro i h1 h2
    rw [List.getElem_mapIdx]
    split
    · simp
    · rfl

/-- AddRootView leaves the root tables unchanged. -/
theorem addRootView_tables (m : RootParamsManager) (pt : RootParamType)
    (ri reg sp : Nat) (vis : Visibility) (rt : RootTypeE) :
    (m.addRootView pt ri reg sp vis rt).rootTables = m.rootTables := by
  unfold RootParamsManager.addRootView
  exact extend_tables_of_zero m 1 noRootTableToAddRanges

/-- The table count after Extend. -/
theorem extend_tables_length (m : RootParamsManager) (net nev ner tgt : Nat) :
    (m.extend net nev ner tgt).rootTables.length = m.rootTables.length + net := by
  unfold RootParamsManager.extend
  simp

/-- The table count after AddRootTable. -/
theorem addRootTable_tables_length (m : RootParamsManager) (ri : Nat) (vis : Visibility)
    (rt : RootTypeE) (nr : Nat) :
    (m.addRootTable ri vis rt nr).rootTables.length = m.rootTables.length + 1 := by
  unfold RootParamsManager.addRootTable
  simp [extend_tables_length]

/-- AddRootTable constructs the new table in the last slot. -/
theorem addRootTable_getD_last (m : RootParamsManager) (ri : Nat) (vis : Visibility)
    (rt : RootTypeE) (nr : Nat) :
    (m.addRootTable ri vis rt nr).rootTables.getD m.rootTables.length default =
      { paramType := .descriptorTable, rootIndex := ri, rootType := rt,
        visibility := vis, ranges := List.replicate nr none } := by
  simp only [RootParamsManager.addRootTable]
  rw [extend_tables_length]
  have h1 : m.rootTables.length + 1 - 1 = m.rootTables.length := by omega
  rw [h1, List.getD_eq_getElem?_getD,
    List.getElem?_set_self (by rw [extend_tables_length]; omega)]
  rfl

/-- AddRootTable keeps every existing table (the arena copy is forwarded
unchanged because no table index can equal the ~0u sentinel). -/
theorem addRootTable_getD_old (m : RootParamsManager) (ri : Nat) (vis : Visibility)
    (rt : RootTypeE) (nr : Nat) (rt0 : Nat) (h : rt0 < m.rootTables.length)
    (hlen : m.rootTables.length < noRootTableToAddRanges) :
    (m.addRootTable ri vis rt nr).rootTables.getD rt0 default =
      m.rootTables.getD rt0 default := by
  simp only [RootParamsManager.addRootTable]
  rw [extend_tables_length]
  have h1 : m.rootTables.length + 1 - 1 = m.rootTables.length := by omega
  rw [h1, List.getD_eq_getElem?_getD, List.getElem?_set_ne (by omega)]
  rw [← List.getD_eq_getElem?_getD]
  exact extend_getD_table_ne m 1 0 nr noRootTableToAddRanges rt0 h (by omega)

/-- The table count after AddDescriptorRanges. -/
theorem addDescriptorRanges_tables_length (m : RootParamsManager) (ind ner : Nat) :
    (m.addDescriptorRanges ind ner).rootTables.length = m.rootTables.length := by
  unfold RootParamsManager.addDescriptorRanges
  simp [extend_tables_length]

/-- AddDescriptorRanges appends uninitialized slots to the designated table. -/
theorem addDescriptorRanges_getD_at (m : RootParamsManager) (ind ner : Nat)
    (h : ind < m.rootTables.length) :
    (m.addDescriptorRanges ind ner).rootTables.getD ind default =
      { m.rootTables.getD ind default with
        ranges := (m.rootTables.getD ind default).ranges ++ List.replicate ner none } := by
  unfold RootParamsManager.addDescriptorRanges
  exact extend_getD_table_eq m 0 0 ner ind h

/-- AddDescriptorRanges keeps every other table. -/
theorem addDescriptorRanges_getD_ne (m : RootParamsManager) (ind ner rt0 : Nat)
    (h : rt0 < m.rootTables.length) (hne : rt0 ≠ ind) :
    (m.addDescriptorRanges ind ner).rootTables.getD rt0 default =
      m.rootTables.getD rt0 default := by
  unfold RootParamsManager.addDescriptorRanges
  exact extend_getD_table_ne m 0 0 ner ind rt0 h hne

/-- The root-view path of AllocateResourceSlot. -/
theorem allocSlot_rootView_eq (st : LayoutState) (stages : Nat) (vt : VarType)
    (rangeType : RangeType) (asize bind space : Nat) :
    allocateResourceSlot st stages vt rangeType asize true bind space =
      ({ st with rootParams := (st.rootParams.addRootView .cbv
          (st.rootParams.rootTables.length + st.rootParams.rootViews.length) bind space
          (getRootTableIndex stages).2 (getRootType vt)) },
       st.rootParams.rootTables.length + st.rootParams.rootViews.length, 0) := rfl

/-- Replacing the root-parameter manager by one with the same table array
preserves the layout invariant. -/
theorem layoutInv_rootParams_congr (st : LayoutState) (rp : RootParamsManager)
    (h : rp.rootTables = st.rootParams.rootTables) (hinv : LayoutInv st) :
    LayoutInv { st with rootParams := rp } := by
  obtain ⟨hA, hB, hC⟩ := hinv
  unfold LayoutInv
  refine ⟨?_, ?_, ?_⟩
  · intro rt hrt
    show TableInv (rp.rootTables.getD rt default)
    have hrt2 : rt < rp.rootTables.length := hrt
    rw [h] at hrt2 ⊢
    exact hA rt hrt2
  · intro key idx hkey
    show idx < rp.rootTables.length
    rw [h]
    exact hB key idx hkey
  · intro key idx hkey
    show idx < rp.rootTables.length
    rw [h]
    exact hC key idx hkey

/-- Updating an unassigned bucket-map slot to the next table index keeps
every stored index below the grown table count. -/
theorem setMap_valid (mp : List (Option Nat)) (K L : Nat)
    (hold : ∀ key idx, mp.getD key none = some idx → idx < L)
    (hK : mp.getD K none = none) :
    ∀ key idx, (mp.set K (some L)).getD key none = some idx → idx < L + 1 := by
  intro key idx hkey
  by_cases hk : K = key
  · subst hk
    by_cases hkl : K < mp.length
    · rw [List.getD_eq_getElem?_getD, List.getElem?_set_self hkl] at hkey
      simp at hkey
      omega
    · rw [List.set_eq_of_length_le (by omega)] at hkey
      rw [hK] at hkey
      exact absurd hkey (by simp)
  · rw [List.getD_eq_getElem?_getD, List.getElem?_set_ne hk] at hkey
    rw [← List.getD_eq_getElem?_getD] at hkey
    exact Nat.lt_succ_of_lt (hold key idx hkey)

/-- The layout invariant on an explicit state record. -/
theorem layoutInv_mk (nr sr : List Nat) (ns : Nat) (rp : RootParamsManager)
    (m1 m2 : List (Option Nat)) (ia : List ImmutableSamplerAttribs)
    (ra : List ResourceAttribs) (t1 t2 : List Nat)
    (hA : ∀ rt, rt < rp.rootTables.length → TableInv (rp.rootTables.getD rt default))
    (hB : ∀ key idx, m1.getD key none = some idx → idx < rp.rootTables.length)
    (hC : ∀ key idx, m2.getD key none = some idx → idx < rp.rootTables.length) :
    LayoutInv ({ numResources := nr, staticResCacheTblSizes := sr, numSpaces := ns,
                 rootParams := rp, srvCbvUavRootTablesMap := m1, samplerRootTablesMap := m2,
                 imtblSamplerAttribs := ia, resourceAttribs := ra,
                 totalSrvCbvUavSlots := t1, totalSamplerSlots := t2 } : LayoutState) :=
  ⟨hA, hB, hC⟩

/-- The new table constructed for an unseen bucket key satisfies the table
invariant once its single range is initialized. -/
theorem tableInv_newTable (RI : Nat) (vis : Visibility) (rty : RootTypeE)
    (rangeType : RangeType) (bind space asize : Nat) :
    TableInv (RootParameter.setDescriptorRange
      ({ paramType := .descriptorTable, rootIndex := RI, rootType := rty,
         visibility := vis, ranges := List.replicate 1 none } : RootParameter)
      ((List.replicate (1 : Nat) (none : Option DescriptorRange)).length - 1)
      rangeType bind space asize 0) := by
  refine ⟨⟨rfl, trivial⟩, ?_⟩
  simp [RootParameter.setDescriptorRange, sumCountsO]

/-- AllocateResourceSlot preserves the layout invariant and adds at most one
root table. -/
theorem allocateResourceSlot_inv (st : LayoutState) (stages : Nat) (vt : VarType)
    (rangeType : RangeType) (asize : Nat) (irv : Bool) (bind space : Nat)
    (hinv : LayoutInv st)
    (hlen : st.rootParams.rootTables.length < noRootTableToAddRanges) :
    LayoutInv (allocateResourceSlot st stages vt rangeType asize irv bind space).1 ∧
    (allocateResourceSlot st stages vt rangeType asize irv
        bind space).1.rootParams.rootTables.length ≤
      st.rootParams.rootTables.length + 1 := by
  obtain ⟨hA, hB, hC⟩ := hinv
  cases irv
  case true =>
    rw [allocSlot_rootView_eq]
    constructor
    · exact layoutInv_rootParams_congr st _ (addRootView_tables _ _ _ _ _ _ _) ⟨hA, hB, hC⟩
    · have h2 := addRootView_tables st.rootParams RootParamType.cbv
        (st.rootParams.rootTables.length + st.rootParams.rootViews.length) bind space
        (getRootTableIndex stages).2 (getRootType vt)
      exact le_trans (le_of_eq (congrArg List.length h2)) (Nat.le_succ _)
  case false =>
    cases hsamp : rangeType == RangeType.sampler
    case true =>
      rcases hm : st.samplerRootTablesMap.getD
          ((getRootTableIndex stages).1 * rootTypeCount + (getRootType vt).toNat) none
        with _ | ind
      · simp only [allocateResourceSlot, hsamp, Bool.false_eq_true, if_false, if_true,
          ite_true, ite_false, hm]
        refine ⟨layoutInv_mk _ _ _ _ _ _ _ _ _ _ ?_ ?_ ?_, ?_⟩
        · intro rt hrt
          rw [List.length_set, addRootTable_tables_length] at hrt
          by_cases he : rt = st.rootParams.rootTables.length
          · subst he
            rw [List.getD_eq_getElem?_getD,
              List.getElem?_set_self (by rw [addRootTable_tables_length]; omega)]
            simp only [Option.getD_some]
            rw [addRootTable_getD_last]
            exact tableInv_newTable _ _ _ _ _ _ _
          · rw [List.getD_eq_getElem?_getD, List.getElem?_set_ne (fun h => he h.symm)]
            rw [← List.getD_eq_getElem?_getD,
              addRootTable_getD_old st.rootParams _ _ _ _ rt (by omega) hlen]
            exact hA rt (by omega)
        · intro key idx hkey
          rw [List.length_set, addRootTable_tables_length]
          exact Nat.lt_succ_of_lt (hB key idx hkey)
        · intro key idx hkey
          rw [List.length_set, addRootTable_tables_length]
          exact setMap_valid st.samplerRootTablesMap _ _ hC hm key idx hkey
        · rw [List.length_set, addRootTable_tables_length]
      · have hInd : ind < st.rootParams.rootTables.length := hC _ ind hm
        simp only [allocateResourceSlot, hsamp, Bool.false_eq_true, if_false, if_true,
          ite_true, ite_false, hm]
        refine ⟨layoutInv_mk _ _ _ _ _ _ _ _ _ _ ?_ ?_ ?_, ?_⟩
        · intro rt hrt
          rw [List.length_set, addDescriptorRanges_tables_length] at hrt
          by_cases he : rt = ind
          · subst he
            rw [List.getD_eq_getElem?_getD,
              List.getElem?_set_self (by rw [addDescriptorRanges_tables_length]; omega)]
            simp only [Option.getD_some]
            rw [addDescriptorRanges_getD_at st.rootParams rt 1 hInd]
            have hidx : (({ st.rootParams.rootTables.getD rt default with
                ranges := (st.rootParams.rootTables.getD rt default).ranges ++
                  List.replicate 1 none } : RootParameter)).ranges.length - 1 =
                (st.rootParams.rootTables.getD rt default).ranges.length := by
              simp
            rw [hidx]
            exact tableInv_allocStep (st.rootParams.rootTables.getD rt default)
              (hA rt hInd) rangeType bind space asize
          · rw [List.getD_eq_getElem?_getD, List.getElem?_set_ne (fun h => he h.symm)]
            rw [← List.getD_eq_getElem?_getD,
              addDescriptorRanges_getD_ne st.rootParams ind 1 rt hrt he]
            exact hA rt hrt
        · intro key idx hkey
          rw [List.length_set, addDescriptorRanges_tables_length]
          exact hB key idx hkey
        · intro key idx hkey
          rw [List.length_set, addDescriptorRanges_tables_length]
          exact hC key idx hkey
        · rw [List.length_set, addDescriptorRanges_tables_length]
          omega
    case false =>
      rcases hm : st.srvCbvUavRootTablesMap.getD
          ((getRootTableIndex stages).1 * rootTypeCount + (getRootType vt).toNat) none
        with _ | ind
      · simp only [allocateResourceSlot, hsamp, Bool.false_eq_true, if_false, if_true,
          ite_true, ite_false, hm]
        refine ⟨layoutInv_mk _ _ _ _ _ _ _ _ _ _ ?_ ?_ ?_, ?_⟩
        · intro rt hrt
          rw [List.length_set, addRootTable_tables_length] at hrt
          by_cases he : rt = st.rootParams.rootTables.length
          · subst he
            rw [List.getD_eq_getElem?_getD,
              List.getElem?_set_self (by rw [addRootTable_tables_length]; omega)]
            simp only [Option.getD_some]
            rw [addRootTable_getD_last]
            exact tableInv_newTable _ _ _ _ _ _ _
          · rw [List.getD_eq_getElem?_getD, List.getElem?_set_ne (fun h => he h.symm)]
            rw [← List.getD_eq_getElem?_getD,
              addRootTable_getD_old st.rootParams _ _ _ _ rt (by omega) hlen]
            exact hA rt (by omega)
        · intro key idx hkey
          rw [List.length_set, addRootTable_tables_length]
          exact setMap_valid st.srvCbvUavRootTablesMap _ _ hB hm key idx hkey
        · intro key idx hkey
          rw [List.length_set, addRootTable_tables_length]
          exact Nat.lt_succ_of_lt (hC key idx hkey)
        · rw [List.length_set, addRootTable_tables_length]
      · have hInd : ind < st.rootParams.rootTables.length := hB _ ind hm
        simp only [allocateResourceSlot, hsamp, Bool.false_eq_true, if_false, if_true,
          ite_true, ite_false, hm]
        refine ⟨layoutInv_mk _ _ _ _ _ _ _ _ _ _ ?_ ?_ ?_, ?_⟩
        · intro rt hrt
          rw [List.length_set, addDescriptorRanges_tables_length] at hrt
          by_cases he : rt = ind
          · subst he
            rw [List.getD_eq_getElem?_getD,
              List.getElem?_set_self (by rw [addDescriptorRanges_tables_length]; omega)]
            simp only [Option.getD_some]
            rw [addDescriptorRanges_getD_at st.rootParams rt 1 hInd]
            have hidx : (({ st.rootParams.rootTables.getD rt default with
                ranges := (st.rootParams.rootTables.getD rt default).ranges ++
                  List.replicate 1 none } : RootParameter)).ranges.length - 1 =
                (st.rootParams.rootTables.getD rt default).ranges.length := by
              simp
            rw [hidx]
            exact tableInv_allocStep (st.rootParams.rootTables.getD rt default)
              (hA rt hInd) rangeType bind space asize
          · rw [List.getD_eq_getElem?_getD, List.getElem?_set_ne (fun h => he h.symm)]
            rw [← List.getD_eq_getElem?_getD,
              addDescriptorRanges_getD_ne st.rootParams ind 1 rt hrt he]
            exact hA rt hrt
        · intro key idx hkey
          rw [List.length_set, addDescriptorRanges_tables_length]
          exact hB key idx hkey
        · intro key idx hkey
          rw [List.length_set, addDescriptorRanges_tables_length]
          exact hC key idx hkey
        · rw [List.length_set, addDescriptorRanges_tables_length]
          omega

/-- Witness for C5: a signature with one Static constant buffer whose
binding-context cache already matches the snapshot. -/
theorem initializeStaticResources_idempotent_witness :
    (∀ p ∈ staticSlotPairs sigC5,
      (dstC5.getRes
          ((sigC5.resourceAttribs.getD p.1 default).rootIndexOf dstC5.contentType)
          ((sigC5.resourceAttribs.getD p.1 default).offsetOf dstC5.contentType + p.2)).pObject =
      (srcC5.getRes
          ((sigC5.resourceAttribs.getD p.1 default).rootIndexOf srcC5.contentType)
          ((sigC5.resourceAttribs.getD p.1 default).offsetOf srcC5.contentType + p.2)).pObject) ∧
    (initializeStaticSRBResources sigC5 srcC5 dstC5).1 = dstC5 :=
  ⟨by decide, initializeStaticResources_idempotent.2 sigC5 srcC5 dstC5 (by decide)⟩

/-- The layout invariant depends only on the root parameters and the two
bucket maps. -/
theorem layoutInv_of_fields {s t : LayoutState}
    (h1 : t.rootParams = s.rootParams)
    (h2 : t.srvCbvUavRootTablesMap = s.srvCbvUavRootTablesMap)
    (h3 : t.samplerRootTablesMap = s.samplerRootTablesMap)
    (h : LayoutInv s) : LayoutInv t := by
  unfold LayoutInv at h ⊢
  rw [h1, h2, h3]
  exact h

/-- The CreateLayout loop body preserves the layout invariant and adds at
most one root table. -/
theorem layoutResourceCore_inv (fs : Nat) (st : LayoutState) (vt : VarType)
    (rty : ResType) (asize : Nat) (flags : ResFlags) (stages : Nat)
    (sii : Option Nat) (asi : Nat) (hinv : LayoutInv st)
    (hlen : st.rootParams.rootTables.length < noRootTableToAddRanges) :
    LayoutInv (layoutResourceCore fs st vt rty asize flags stages sii asi) ∧
    (layoutResourceCore fs st vt rty asize flags stages
        sii asi).rootParams.rootTables.length ≤
      st.rootParams.rootTables.length + 1 := by
  rcases sii with _ | ind
  · simp only [layoutResourceCore]
    split_ifs <;>
      exact allocateResourceSlot_inv _ _ _ _ _ _ _ _
        (layoutInv_of_fields rfl rfl rfl hinv) hlen
  · simp only [layoutResourceCore]
    split_ifs <;>
      exact ⟨layoutInv_of_fields rfl rfl rfl hinv, Nat.le_succ _⟩

/-- The whole resource loop preserves the invariant and grows the table list
by at most one table per resource. -/
theorem foldl_layoutResource_inv (ctx : LayoutCtx) (l : List PipelineResourceDesc)
    (st : LayoutState) (hinv : LayoutInv st)
    (hlen : st.rootParams.rootTables.length + l.length ≤ noRootTableToAddRanges) :
    LayoutInv (l.foldl (layoutResource ctx) st) ∧
    (l.foldl (layoutResource ctx) st).rootParams.rootTables.length ≤
      st.rootParams.rootTables.length + l.length := by
  induction l generalizing st with
  | nil => exact ⟨hinv, Nat.le_refl _⟩
  | cons r rest ih =>
    rw [List.length_cons] at hlen
    have h1 : LayoutInv (layoutResource ctx st r) ∧
        (layoutResource ctx st r).rootParams.rootTables.length ≤
          st.rootParams.rootTables.length + 1 := by
      unfold layoutResource
      exact layoutResourceCore_inv _ _ _ _ _ _ _ _ _ hinv (by omega)
    obtain ⟨h1a, h1b⟩ := h1
    obtain ⟨h2a, h2b⟩ := ih (layoutResource ctx st r) h1a (by omega)
    rw [List.foldl_cons]
    refine ⟨h2a, ?_⟩
    rw [List.length_cons]
    omega

/-- The trailing immutable-sampler loop body never touches the root
parameters or the bucket maps. -/
theorem addUnmatched_fields (fs : Nat) (st : LayoutState) (i : Nat) :
    (addUnmatchedImmutableSampler fs st i).rootParams = st.rootParams ∧
    (addUnmatchedImmutableSampler fs st i).srvCbvUavRootTablesMap =
      st.srvCbvUavRootTablesMap ∧
    (addUnmatchedImmutableSampler fs st i).samplerRootTablesMap =
      st.samplerRootTablesMap := by
  simp only [addUnmatchedImmutableSampler]
  split_ifs <;> exact ⟨rfl, rfl, rfl⟩

/-- Nor does the whole trailing loop. -/
theorem foldl_addUnmatched_fields (fs : Nat) (l : List Nat) (st : LayoutState) :
    (l.foldl (addUnmatchedImmutableSampler fs) st).rootParams = st.rootParams ∧
    (l.foldl (addUnmatchedImmutableSampler fs) st).srvCbvUavRootTablesMap =
      st.srvCbvUavRootTablesMap ∧
    (l.foldl (addUnmatchedImmutableSampler fs) st).samplerRootTablesMap =
      st.samplerRootTablesMap := by
  induction l generalizing st with
  | nil => exact ⟨rfl, rfl, rfl⟩
  | cons i rest ih =>
    rw [List.foldl_cons]
    obtain ⟨e1, e2, e3⟩ := ih (addUnmatchedImmutableSampler fs st i)
    obtain ⟨f1, f2, f3⟩ := addUnmatched_fields fs st i
    exact ⟨e1.trans f1, e2.trans f2, e3.trans f3⟩

/-- The initial CreateLayout state satisfies the layout invariant. -/
theorem initLayoutState_inv (n : Nat) : LayoutInv (initLayoutState n) := by
  refine ⟨?_, ?_, ?_⟩
  · intro rt hrt
    simp [initLayoutState] at hrt
  · intro key idx h
    simp only [initLayoutState] at h
    rw [List.getD_eq_getElem?_getD, List.getElem?_replicate] at h
    split at h <;> simp at h
  · intro key idx h
    simp only [initLayoutState] at h
    rw [List.getD_eq_getElem?_getD, List.getElem?_replicate] at h
    split at h <;> simp at h

/-- Every root table of CreateLayout's result satisfies the table
invariant. -/
theorem createLayout_tableInv (ctx : LayoutCtx) (n : Nat)
    (hn : ctx.sortedRes.length ≤ noRootTableToAddRanges) :
    ∀ rt, rt < (createLayout ctx n).rootParams.rootTables.length →
      TableInv ((createLayout ctx n).rootParams.rootTables.getD rt default) := by
  obtain ⟨hinv, _⟩ := foldl_layoutResource_inv ctx ctx.sortedRes (initLayoutState n)
    (initLayoutState_inv n) (by simpa [initLayoutState] using hn)
  obtain ⟨e1, _, _⟩ := foldl_addUnmatched_fields ctx.firstSpace (List.range n)
    (ctx.sortedRes.foldl (layoutResource ctx) (initLayoutState n))
  intro rt hrt
  simp only [createLayout] at hrt ⊢
  rw [e1] at hrt ⊢
  exact hinv.1 rt hrt

/-- The table invariant implies the claimed packing property. -/
theorem tableInv_packed {p : RootParameter} (h : TableInv p) : TablePacked p := by
  obtain ⟨hp, hsz⟩ := h
  refine ⟨?_, ?_, ?_, ?_⟩
  · intro k hk
    obtain ⟨r, h1, h2⟩ := rangesPackedFrom_getD p.ranges 0 hp k hk
    exact ⟨r, h1, by simpa using h2⟩
  · exact rangesPackedFrom_disjoint p.ranges 0 hp
  · intro r hr
    have h2 := rangesPackedFrom_upper p.ranges 0 hp r hr
    omega
  · intro hne
    obtain ⟨r, h1, h2⟩ := rangesPackedFrom_attained p.ranges 0 hp hne
    exact ⟨r, h1, by omega⟩

/-- C7: Descriptor-table packing invariant: in every root table built by the
layout allocator, the descriptor ranges occupy disjoint, packed
[offset, offset+count) intervals (each range's offset equals the sum of the
counts of the ranges added before it, i.e. the table's size at the time it
was added), and the table's reported descriptor-table size equals
max(offset+count) over its ranges: it is an upper bound attained by some
range whenever the table has one. -/
theorem descriptorTable_packing (sortf : List Nat → List Nat) (d : PRSDesc)
    (hn : (sortedResourcesOf sortf d.resources).length ≤ noRootTableToAddRanges) :
    ∀ rt, rt < (buildSignature sortf d).rootParams.rootTables.length →
      TablePacked ((buildSignature sortf d).rootParams.rootTables.getD rt default) := by
  intro rt hrt
  simp only [buildSignature] at hrt ⊢
  exact tableInv_packed (createLayout_tableInv _ _ hn rt hrt)

/-- Witness for C7: the second root table (the SRV/UAV one) of the signature
built from dC7 under the concrete sort choice. -/
theorem descriptorTable_packing_witness :
    ((sortedResourcesOf sortChoice dC7.resources).length ≤ noRootTableToAddRanges ∧
      1 < (buildSignature sortChoice dC7).rootParams.rootTables.length) ∧
    TablePacked ((buildSignature sortChoice dC7).rootParams.rootTables.getD 1 default) :=
  ⟨⟨by decide, by decide⟩,
    descriptorTable_packing sortChoice dC7 (by decide) 1 (by decide)⟩

/-- If every bit of s lies in t and a is disjoint from t, then a is disjoint
from s. -/
theorem land_eq_zero_of_subset (a s t : Nat) (hsub : s &&& t = s) (h0 : a &&& t = 0) :
    a &&& s = 0 := by
  apply Nat.eq_of_testBit_eq
  intro i
  have h1 : s.testBit i = (s.testBit i && t.testBit i) := by
    conv_lhs => rw [← hsub]
    rw [Nat.testBit_land]
  have h2 : (a.testBit i && t.testBit i) = false := by
    rw [← Nat.testBit_land, h0, Nat.zero_testBit]
  rw [Nat.testBit_land, Nat.zero_testBit]
  cases ha : a.testBit i <;> cases ht : t.testBit i <;> cases hsb : s.testBit i <;>
    simp_all

/-- The FindResource loop returns the queried position when no earlier
resource shares the name with an overlapping stage mask. -/
theorem findResourceAux_roundtrip (s : Nat) (l : List PipelineResourceDesc)
    (hdup : List.Pairwise (fun a b => a.name = b.name →
      a.shaderStages &&& b.shaderStages = 0) l)
    (r r0 : Nat) (hr : r < l.length) (hs0 : s ≠ 0)
    (hsub : s &&& (l.getD r default).shaderStages = s) :
    findResourceAux s (l.getD r default).name r0 l = r0 + r := by
  induction l generalizing r r0 with
  | nil => exact absurd hr (by simp)
  | cons a rest ih =>
    obtain ⟨ha, hrest⟩ := List.pairwise_cons.mp hdup
    rcases r with _ | r2
    · simp only [List.getD_cons_zero] at hsub ⊢
      have hstage : a.shaderStages &&& s ≠ 0 := by
        rw [Nat.land_comm, hsub]
        exact hs0
      simp [findResourceAux, hstage]
    · have hr2 : r2 < rest.length := by simpa using hr
      rw [List.getD_cons_succ] at hsub ⊢
      have htgt : rest.getD r2 default ∈ rest := by
        rw [List.getD_eq_getElem?_getD, List.getElem?_eq_getElem hr2]
        exact List.getElem_mem hr2
      have hcond : ((a.shaderStages &&& s != 0) &&
          (a.name == (rest.getD r2 default).name)) = false := by
        by_cases hname : a.name = (rest.getD r2 default).name
        · have h0 := ha _ htgt hname
          have h1 : a.shaderStages &&& s = 0 := land_eq_zero_of_subset _ _ _ hsub h0
          simp [h1]
        · have hname2 : (a.name == (rest.getD r2 default).name) = false :=
            beq_eq_false_iff_ne.mpr hname
          rw [hname2, Bool.and_false]
      simp only [findResourceAux, hcond, Bool.false_eq_true, if_false]
      rw [ih hrest r2 (r0 + 1) hr2 hsub]
      omega

/-- C3 (amended): for every conforming std::sort behavior and every
description in which no two resources share a name with overlapping stage
masks, FindResource called with a sorted resource's own name and any nonzero
stage set contained in its stage mask returns that resource's index; without
the no-duplicate restriction (enforced by validation code outside src/ and
absent from the modelled validity), the loop returns the first match and the
round-trip fails. -/
theorem findResource_roundtrip (sortf : List Nat → List Nat)
    (hs : IsSortChoice sortf) (d : PRSDesc)
    (hdup : List.Pairwise (fun a b => a.name = b.name →
      a.shaderStages &&& b.shaderStages = 0) d.resources)
    (r : Nat) (hr : r < (buildSignature sortf d).resources.length)
    (s : Nat) (hs0 : s ≠ 0)
    (hsub : s &&& ((buildSignature sortf d).resources.getD r default).shaderStages = s) :
    (buildSignature sortf d).findResource s
      ((buildSignature sortf d).resources.getD r default).name = r := by
  have hsymm : Symmetric (fun a b : PipelineResourceDesc => a.name = b.name →
      a.shaderStages &&& b.shaderStages = 0) := by
    intro a b hab hba
    rw [Nat.land_comm]
    exact hab hba.symm
  have hperm := sortedResourcesOf_perm sortf hs d.resources
  have hdup2 := (hperm.pairwise_iff (fun h => hsymm h)).mpr hdup
  have h := findResourceAux_roundtrip s (sortedResourcesOf sortf d.resources) hdup2 r 0 hr
    hs0 hsub
  rw [Nat.zero_add] at h
  exact h

/-- Witness for C3: the second sorted resource of dC7 (the Mutable sampler)
is found at its own index. -/
theorem findResource_roundtrip_witness :
    (IsSortChoice sortChoice ∧
      List.Pairwise (fun a b => a.name = b.name →
        a.shaderStages &&& b.shaderStages = 0) dC7.resources ∧
      1 < (buildSignature sortChoice dC7).resources.length ∧
      (1 : Nat) ≠ 0 ∧
      1 &&& ((buildSignature sortChoice dC7).resources.getD 1 default).shaderStages = 1) ∧
    (buildSignature sortChoice dC7).findResource 1
      ((buildSignature sortChoice dC7).resources.getD 1 default).name = 1 :=
  ⟨⟨sortChoice_isSortChoice, by decide, by decide, by decide, by decide⟩,
    findResource_roundtrip sortChoice sortChoice_isSortChoice dC7 (by decide) 1 (by decide)
      1 (by decide) (by decide)⟩

/-- Counterexample to C3 as stated: dC3 passes the modelled validation, its
second sorted resource is named x with stage mask 1, yet FindResource(1, x)
returns 0, not 1: the loop stops at the first same-name resource. -/
theorem findResource_roundtrip_counterexample :
    IsSortChoice sortChoice ∧ ValidDesc dC3 ∧
    1 < (buildSignature sortChoice dC3).resources.length ∧
    1 &&& ((buildSignature sortChoice dC3).resources.getD 1 default).shaderStages = 1 ∧
    (buildSignature sortChoice dC3).findResource 1
      ((buildSignature sortChoice dC3).resources.getD 1 default).name ≠ 1 :=
  ⟨sortChoice_isSortChoice, by decide, by decide, by decide, by decide⟩

/-- The CreateLayout loop body only reads a resource through its non-name
fields and the two name-driven lookup results. -/
theorem layoutResource_congr (ctx1 ctx2 : LayoutCtx) (st : LayoutState)
    (r1 r2 : PipelineResourceDesc) (hfs : ctx1.firstSpace = ctx2.firstSpace)
    (hne : NonNameEqRes r1 r2)
    (hfi : findImmutableSamplerIdx r1 ctx1.samplers ctx1.suffixOpt =
      findImmutableSamplerIdx r2 ctx2.samplers ctx2.suffixOpt)
    (hfa : findAssignedSampler ctx1.useCombined ctx1.suffixOpt ctx1.sortedRes ctx1.offsets r1 =
      findAssignedSampler ctx2.useCombined ctx2.suffixOpt ctx2.sortedRes ctx2.offsets r2) :
    layoutResource ctx1 st r1 = layoutResource ctx2 st r2 := by
  obtain ⟨hv, ht, ha, hf, hst⟩ := hne
  simp only [layoutResource]
  rw [hfi, hfa, hfs, hv, ht, ha, hf, hst]

/-- The whole resource loop is insensitive to names when the lookups are
preserved. -/
theorem foldl_layoutResource_congr (ctx1 ctx2 : LayoutCtx)
    (hfs : ctx1.firstSpace = ctx2.firstSpace) :
    ∀ l1 l2 : List PipelineResourceDesc, l1.length = l2.length →
    (∀ i, i < l1.length → NonNameEqRes (l1.getD i default) (l2.getD i default)) →
    (∀ i, i < l1.length →
      findImmutableSamplerIdx (l1.getD i default) ctx1.samplers ctx1.suffixOpt =
      findImmutableSamplerIdx (l2.getD i default) ctx2.samplers ctx2.suffixOpt) →
    (∀ i, i < l1.length →
      findAssignedSampler ctx1.useCombined ctx1.suffixOpt ctx1.sortedRes ctx1.offsets
        (l1.getD i default) =
      findAssignedSampler ctx2.useCombined ctx2.suffixOpt ctx2.sortedRes ctx2.offsets
        (l2.getD i default)) →
    ∀ st : LayoutState,
      l1.foldl (layoutResource ctx1) st = l2.foldl (layoutResource ctx2) st := by
  intro l1
  induction l1 with
  | nil =>
    intro l2 hlen _ _ _ st
    cases l2 with
    | nil => rfl
    | cons b t2 => simp at hlen
  | cons a t ih =>
    intro l2 hlen hres hfi hfa st
    cases l2 with
    | nil => simp at hlen
    | cons b t2 =>
      rw [List.foldl_cons, List.foldl_cons,
        layoutResource_congr ctx1 ctx2 st a b hfs (by simpa using hres 0 (by simp))
          (by simpa using hfi 0 (by simp)) (by simpa using hfa 0 (by simp))]
      exact ih t2 (by simpa using hlen)
        (fun i hi => by simpa using hres (i + 1) (by simpa using hi))
        (fun i hi => by simpa using hfi (i + 1) (by simpa using hi))
        (fun i hi => by simpa using hfa (i + 1) (by simpa using hi))
        (layoutResource ctx2 st b)

/-- CreateLayout is insensitive to names when the lookups are preserved. -/
theorem createLayout_congr (ctx1 ctx2 : LayoutCtx) (n : Nat)
    (hfs : ctx1.firstSpace = ctx2.firstSpace)
    (hlen : ctx1.sortedRes.length = ctx2.sortedRes.length)
    (hres : ∀ i, i < ctx1.sortedRes.length →
      NonNameEqRes (ctx1.sortedRes.getD i default) (ctx2.sortedRes.getD i default))
    (hfi : ∀ i, i < ctx1.sortedRes.length →
      findImmutableSamplerIdx (ctx1.sortedRes.getD i default) ctx1.samplers ctx1.suffixOpt =
      findImmutableSamplerIdx (ctx2.sortedRes.getD i default) ctx2.samplers ctx2.suffixOpt)
    (hfa : ∀ i, i < ctx1.sortedRes.length →
      findAssignedSampler ctx1.useCombined ctx1.suffixOpt ctx1.sortedRes ctx1.offsets
        (ctx1.sortedRes.getD i default) =
      findAssignedSampler ctx2.useCombined ctx2.suffixOpt ctx2.sortedRes ctx2.offsets
        (ctx2.sortedRes.getD i default)) :
    createLayout ctx1 n = createLayout ctx2 n := by
  simp only [createLayout]
  rw [foldl_layoutResource_congr ctx1 ctx2 hfs ctx1.sortedRes ctx2.sortedRes hlen hres hfi
    hfa (initLayoutState n), hfs]

/-- The immutable-sampler hash fold only reads stages and sampler state. -/
theorem samplerHashFold_congr (H : HashModel) (l1 l2 : List ImmutableSamplerDesc)
    (hlen : l1.length = l2.length)
    (hpt : ∀ j, j < l1.length →
      (l1.getD j default).shaderStages = (l2.getD j default).shaderStages ∧
      (l1.getD j default).samplerDesc = (l2.getD j default).samplerDesc) :
    ∀ h : Nat,
      l1.foldl (fun h s => hashCombineList H h [s.shaderStages, s.samplerDesc]) h =
      l2.foldl (fun h s => hashCombineList H h [s.shaderStages, s.samplerDesc]) h := by
  induction l1 generalizing l2 with
  | nil =>
    intro h
    cases l2 with
    | nil => rfl
    | cons b t2 => simp at hlen
  | cons a t ih =>
    intro h
    cases l2 with
    | nil => simp at hlen
    | cons b t2 =>
      obtain ⟨e1, e2⟩ := hpt 0 (by simp)
      simp only [List.getD_cons_zero] at e1 e2
      rw [List.foldl_cons, List.foldl_cons, e1, e2]
      exact ih t2 (by simpa using hlen)
        (fun j hj => by simpa using hpt (j + 1) (by simpa using hj)) _

/-- CalculateHash never reads a name. -/
theorem calculateHash_congr (H : HashModel) (a b : Signature)
    (hb : a.bindingIndex = b.bindingIndex)
    (hrl : a.resources.length = b.resources.length)
    (hra : a.resourceAttribs = b.resourceAttribs)
    (hres : ∀ i, i < a.resources.length →
      NonNameEqRes (a.resources.getD i default) (b.resources.getD i default))
    (hsl : a.immutableSamplers.length = b.immutableSamplers.length)
    (hsam : ∀ j, j < a.immutableSamplers.length →
      (a.immutableSamplers.getD j default).shaderStages =
        (b.immutableSamplers.getD j default).shaderStages ∧
      (a.immutableSamplers.getD j default).samplerDesc =
        (b.immutableSamplers.getD j default).samplerDesc) :
    calculateHash H a = calculateHash H b := by
  simp only [calculateHash]
  rw [hb, hra, hsl, hrl]
  have hfold1 : ∀ seed : Nat,
      (List.range b.resources.length).foldl (fun h i =>
        hashCombineList H h (resourceHashValues (a.resources.getD i default)
          (b.resourceAttribs.getD i default))) seed =
      (List.range b.resources.length).foldl (fun h i =>
        hashCombineList H h (resourceHashValues (b.resources.getD i default)
          (b.resourceAttribs.getD i default))) seed := by
    intro seed
    apply List.foldl_ext
    intro acc x hx
    have hx2 : x < a.resources.length := by
      rw [hrl]
      exact List.mem_range.mp hx
    obtain ⟨e1, e2, e3, e4, e5⟩ := hres x hx2
    simp only [resourceHashValues]
    rw [e3, e5, e1, e4]
  rw [hfold1]
  rw [samplerHashFold_congr H a.immutableSamplers b.immutableSamplers hsl hsam]

/-- ResourcesCompatible on equal attributes. -/
theorem resourcesCompatibleAttribs_refl (a : ResourceAttribs) :
    resourcesCompatibleAttribs a a = true := by
  simp [resourcesCompatibleAttribs]

/-- A lookup-preserving renaming yields binding-compatible signatures. -/
theorem compat_of_renameCompatible (H : HashModel) (sortf : List Nat → List Nat)
    (d1 d2 : PRSDesc) (hrc : RenameCompatible sortf d1 d2) :
    isCompatibleWith H (buildSignature sortf d1) (buildSignature sortf d2) = true := by
  obtain ⟨hbind, hslen, hsam, hrlen, hres, hfi, hfa⟩ := hrc
  have hstate := createLayout_congr
    ({ samplers := d1.immutableSamplers, suffixOpt := d1.suffixOpt,
       useCombined := d1.useCombinedTextureSamplers,
       sortedRes := sortedResourcesOf sortf d1.resources,
       offsets := resourceOffsetsOf d1.resources,
       firstSpace := getBaseRegisterSpace d1 } : LayoutCtx)
    ({ samplers := d2.immutableSamplers, suffixOpt := d2.suffixOpt,
       useCombined := d2.useCombinedTextureSamplers,
       sortedRes := sortedResourcesOf sortf d2.resources,
       offsets := resourceOffsetsOf d2.resources,
       firstSpace := getBaseRegisterSpace d2 } : LayoutCtx)
    d1.immutableSamplers.length rfl hrlen hres hfi hfa
  nth_rewrite 2 [hslen] at hstate
  unfold isCompatibleWith
  simp only [buildSignature, Signature.getHash]
  rw [hstate]
  simp only [Bool.and_eq_true, beq_iff_eq, List.all_eq_true]
  refine ⟨⟨⟨⟨⟨?_, ?_⟩, ?_⟩, ?_⟩, ?_⟩, ?_⟩
  · exact calculateHash_congr H _ _ hbind hrlen rfl hres hslen hsam
  · exact hbind
  · exact hrlen
  · intro r hr
    have hrlt : r < (sortedResourcesOf sortf d1.resources).length := List.mem_range.mp hr
    obtain ⟨e1, e2, e3, e4, e5⟩ := hres r hrlt
    refine ⟨resourcesCompatibleAttribs_refl _, ?_⟩
    simp only [resourcesCompatibleDescs]
    rw [e5, e3, e2, e1, e4]
    simp
  · exact hslen
  · intro s hs
    have hslt : s < d1.immutableSamplers.length := List.mem_range.mp hs
    obtain ⟨e1, e2⟩ := hsam s hslt
    exact ⟨e1, e2⟩

/-- Changing one resource's array size makes the built signatures
incompatible. -/
theorem incompat_of_sizeChange (H : HashModel) (sortf : List Nat → List Nat)
    (d1 d2 : PRSDesc) (i0 : Nat) (hs : IsSortChoice sortf)
    (hse : SameExceptSizeAt d1 d2 i0) :
    isCompatibleWith H (buildSignature sortf d1) (buildSignature sortf d2) = false := by
  obtain ⟨hlen, hi0, hvt, hsz⟩ := hse
  have hkeys : d1.resources.map (fun r => r.varType.toNat) =
      d2.resources.map (fun r => r.varType.toNat) := by
    apply List.ext_getElem
    · simpa using hlen
    · intro i h1 h2
      simp only [List.getElem_map]
      have hv := hvt i (by simpa using h1)
      rw [List.getD_eq_getElem?_getD, List.getD_eq_getElem?_getD,
        List.getElem?_eq_getElem (by simpa using h1),
        List.getElem?_eq_getElem (by simpa using h2)] at hv
      simp at hv
      rw [hv]
  set idx := sortf (d1.resources.map (fun r => r.varType.toNat)) with hidx
  have hperm := (hs (d1.resources.map (fun r => r.varType.toNat))).1
  have hplen : idx.length = d1.resources.length := by
    have h2 := hperm.length_eq
    simpa using h2
  have hvalid1 : ∀ i ∈ idx, i < d1.resources.length := by
    intro i hi
    have h2 := hperm.mem_iff.mp hi
    simpa using h2
  have hvalid2 : ∀ i ∈ idx, i < d2.resources.length := fun i hi => hlen ▸ hvalid1 i hi
  have hmap1 : sortedResourcesOf sortf d1.resources =
      idx.map (fun i => d1.resources.getD i default) := by
    unfold sortedResourcesOf
    rw [← hidx]
    exact applyPerm_eq_map idx d1.resources hvalid1
  have hmap2 : sortedResourcesOf sortf d2.resources =
      idx.map (fun i => d2.resources.getD i default) := by
    unfold sortedResourcesOf
    rw [← hkeys, ← hidx]
    exact applyPerm_eq_map idx d2.resources hvalid2
  have hmem : i0 ∈ idx := hperm.mem_iff.mpr (by simpa using hi0)
  obtain ⟨j0, hj0lt, hj0⟩ := List.getElem_of_mem hmem
  cases hc : isCompatibleWith H (buildSignature sortf d1) (buildSignature sortf d2) with
  | false => rfl
  | true =>
    exfalso
    unfold isCompatibleWith at hc
    simp only [buildSignature, Bool.and_eq_true, List.all_eq_true] at hc
    obtain ⟨⟨⟨⟨⟨_, _⟩, _⟩, hall⟩, _⟩, _⟩ := hc
    have hj0mem : j0 ∈ List.range (sortedResourcesOf sortf d1.resources).length := by
      rw [hmap1]
      simpa using hj0lt
    have hbody := hall j0 hj0mem
    have hdesc := hbody.2
    have hg1 : (sortedResourcesOf sortf d1.resources).getD j0 default =
        d1.resources.getD i0 default := by
      rw [hmap1, List.getD_eq_getElem?_getD, List.getElem?_map,
        List.getElem?_eq_getElem hj0lt]
      simp [hj0]
    have hg2 : (sortedResourcesOf sortf d2.resources).getD j0 default =
        d2.resources.getD i0 default := by
      rw [hmap2, List.getD_eq_getElem?_getD, List.getElem?_map,
        List.getElem?_eq_getElem hj0lt]
      simp [hj0]
    rw [hg1, hg2] at hdesc
    unfold resourcesCompatibleDescs at hdesc
    simp only [Bool.and_eq_true, beq_iff_eq] at hdesc
    exact hsz hdesc.1.1.1.2

/-- C4 (amended): a renaming of resources and immutable samplers that
preserves the two name-driven lookups of CreateLayout (immutable-sampler
matching and combined-sampler assignment) yields binding-compatible
signatures under every hash model and every conforming std::sort; a plain
renaming need not (see the counterexample), because the layout consults the
names.  Changing one resource's array size always makes the two signatures
incompatible. -/
theorem isCompatible_rename_and_size :
    (∀ (H : HashModel) (sortf : List Nat → List Nat) (d1 d2 : PRSDesc),
      RenameCompatible sortf d1 d2 →
      isCompatibleWith H (buildSignature sortf d1) (buildSignature sortf d2) = true) ∧
    (∀ (H : HashModel) (sortf : List Nat → List Nat) (d1 d2 : PRSDesc) (i0 : Nat),
      IsSortChoice sortf → SameExceptSizeAt d1 d2 i0 →
      isCompatibleWith H (buildSignature sortf d1) (buildSignature sortf d2) = false) :=
  ⟨fun H sortf d1 d2 h => compat_of_renameCompatible H sortf d1 d2 h,
   fun H sortf d1 d2 i0 hs h => incompat_of_sizeChange H sortf d1 d2 i0 hs h⟩

/-- Witness for C4: the consistent renaming dC4a to dC4c is compatible; the
array-size change dC4a to dC4d is incompatible. -/
theorem isCompatible_rename_and_size_witness :
    (RenameCompatible sortChoice dC4a dC4c ∧
      isCompatibleWith hashModelZero (buildSignature sortChoice dC4a)
        (buildSignature sortChoice dC4c) = true) ∧
    (IsSortChoice sortChoice ∧ SameExceptSizeAt dC4a dC4d 0 ∧
      isCompatibleWith hashModelZero (buildSignature sortChoice dC4a)
        (buildSignature sortChoice dC4d) = false) :=
  ⟨⟨by decide, isCompatible_rename_and_size.1 hashModelZero sortChoice dC4a dC4c (by decide)⟩,
   ⟨sortChoice_isSortChoice, by decide,
    isCompatible_rename_and_size.2 hashModelZero sortChoice dC4a dC4d 0
      sortChoice_isSortChoice (by decide)⟩⟩

/-- Counterexample to C4's first sentence: dC4b differs from dC4a only in the
resource's name, yet the signatures are incompatible: the renamed resource no
longer matches the immutable sampler, so its layout attributes differ. -/
theorem isCompatible_rename_counterexample :
    dC4a.resources.length = dC4b.resources.length ∧
    (∀ i, i < dC4a.resources.length →
      NonNameEqRes (dC4a.resources.getD i default) (dC4b.resources.getD i default)) ∧
    dC4a.immutableSamplers.length = dC4b.immutableSamplers.length ∧
    (∀ j, j < dC4a.immutableSamplers.length →
      (dC4a.immutableSamplers.getD j default).shaderStages =
        (dC4b.immutableSamplers.getD j default).shaderStages ∧
      (dC4a.immutableSamplers.getD j default).samplerDesc =
        (dC4b.immutableSamplers.getD j default).samplerDesc) ∧
    dC4a.bindingIndex = dC4b.bindingIndex ∧
    dC4a.useCombinedTextureSamplers = dC4b.useCombinedTextureSamplers ∧
    dC4a.combinedSamplerSuffix = dC4b.combinedSamplerSuffix ∧
    isCompatibleWith hashModelZero (buildSignature sortChoice dC4a)
      (buildSignature sortChoice dC4b) = false := by
  refine ⟨by decide, by decide, by decide, by decide, by decide, by decide, by decide,
    by decide⟩

end DiligentPRS
